import Mathlib

/-!
A shallow embedding of the gossip simulation engine in
`gossip_algorithm.py` (classes `NodeState`, `Message`, `GossipNode`,
`GossipSimulator`), together with proofs about its claimed properties.

Modelling conventions:
* Python floats become `ℚ`; the engine's propagation logic never performs
  arithmetic on them except the topology distance test, which we express
  with squared distances (equivalent to the source's
  `sqrt(dx^2+dy^2) <= r` whenever `r ≥ 0`).
* Every draw from Python's global `random` module is abstracted into an
  oracle argument: a function that yields the outcome of that draw
  (Bernoulli trials become `Bool`s, `random.sample` becomes a selection
  function, `random.choice` over the visited set becomes a picking
  function, `random.uniform` positions become a position function).
  Theorems quantify over all oracles, so they hold for every random seed.
* Python `dict`s keyed by node id become association by the `node_id`
  field of a list of nodes; Python `set`s of ints become `Finset ℕ`.
  Where Python iterates over a set (an unspecified order), the model
  iterates in ascending order; no proof below depends on that order.
* `time.time()` timestamps are wall-clock floats never read by any logic
  in the source; the `Message` model omits the `timestamp` field.
-/

namespace Gossip

/-- `NodeState` enum from the source: susceptible / infected / removed. -/
inductive NodeState where
  | SUSCEPTIBLE
  | INFECTED
  | REMOVED
deriving DecidableEq, Repr

/-- Position of a state along the one-way SIR progression, used to state
forward-only monotonicity. -/
def NodeState.rank : NodeState → ℕ
  | .SUSCEPTIBLE => 0
  | .INFECTED => 1
  | .REMOVED => 2

/-- The decimal digit characters of `n`, most significant first (fuel
recursion; `fuel = n + 1` always suffices since a number has at most
`n + 1` decimal digits). -/
def digitChars : ℕ → ℕ → List Char
  | 0, _ => []
  | fuel + 1, n =>
      if n < 10 then [Nat.digitChar n]
      else digitChars fuel (n / 10) ++ [Nat.digitChar (n % 10)]

/-- Decimal rendering of a natural number (Python's `str(n)` inside an
f-string). -/
def natStr (n : ℕ) : String := ⟨digitChars (n + 1) n⟩

/-- Ascending enumeration of a finite set of naturals, the model's fixed
iteration order for Python's sets (`list(s)`, set iteration).  Defined by
insertion sort on the underlying multiset so that it evaluates by kernel
reduction. -/
def ascList (s : Finset ℕ) : List ℕ :=
  Quot.liftOn s.val (List.insertionSort (· ≤ ·)) (fun a b h =>
    List.eq_of_perm_of_sorted
      ((List.perm_insertionSort _ a).trans
        (List.Perm.trans h (List.perm_insertionSort _ b).symm))
      (List.sorted_insertionSort _ a) (List.sorted_insertionSort _ b))

/-- The message identifier `f"msg_{counter}_{node_id}"` from
`GossipSimulator._gossip_step`. -/
def mkMsgId (counter node_id : ℕ) : String :=
  "msg_" ++ natStr counter ++ "_" ++ natStr node_id

/-- `Message` dataclass from the source (`timestamp` omitted, see the
module comment). -/
structure Message where
  id : String
  content : String
  source_node : ℕ
  hop_count : ℕ
deriving DecidableEq, Repr

/-- `GossipNode` from the source.  `messages` models the
`Dict[str, Message]` keyed by message id (entries are only ever inserted
for ids not yet present, so the list of entries carries the same
information as the dict); `message_history` is the append-only list. -/
structure GossipNode where
  node_id : ℕ
  x : ℚ
  y : ℚ
  state : NodeState
  messages : List Message
  neighbors : Finset ℕ
  infection_probability : ℚ
  recovery_probability : ℚ
  is_active : Bool
  message_history : List Message
deriving DecidableEq

/-- `GossipNode.__init__`. -/
def GossipNode.init (node_id : ℕ) (x y : ℚ) : GossipNode :=
  { node_id := node_id, x := x, y := y, state := .SUSCEPTIBLE,
    messages := [], neighbors := ∅,
    infection_probability := 1/10, recovery_probability := 1/20,
    is_active := true, message_history := [] }

/-- `GossipNode.add_neighbor`. -/
def GossipNode.add_neighbor (n : GossipNode) (neighbor_id : ℕ) : GossipNode :=
  { n with neighbors := insert neighbor_id n.neighbors }

/-- `GossipNode.infect`: only a susceptible node becomes infected. -/
def GossipNode.infect (n : GossipNode) : GossipNode :=
  if n.state = .SUSCEPTIBLE then { n with state := .INFECTED } else n

/-- `GossipNode.recover`: `coin` is the outcome of the Bernoulli trial
`random.random() < self.recovery_probability` (drawn only when the node
is infected; the outcome for other states is irrelevant). -/
def GossipNode.recover (n : GossipNode) (coin : Bool) : GossipNode :=
  if n.state = .INFECTED ∧ coin = true then { n with state := .REMOVED } else n

/-- The set of message ids known to a node (keys of the `messages` dict). -/
def GossipNode.knownIds (n : GossipNode) : List String :=
  n.messages.map Message.id

/-- `GossipNode.receive_message`: `coin` is the outcome of the trial
`random.random() < self.infection_probability` (drawn only when the
receiving node is susceptible and the message is new). -/
def GossipNode.receive_message (n : GossipNode) (message : Message) (coin : Bool) :
    GossipNode :=
  if message.id ∈ n.knownIds then n
  else
    let n' := { n with messages := n.messages ++ [message],
                       message_history := n.message_history ++ [message] }
    if n.state = .SUSCEPTIBLE ∧ coin = true then n'.infect else n'

/-- `GossipSimulator` from the source.  `nodes` models the
`Dict[int, GossipNode]` whose keys are the `node_id` fields; iteration
over `self.nodes.values()` is iteration over this list (Python dict
insertion order: ids `0, 1, ...`). -/
structure GossipSimulator where
  num_nodes : ℕ
  width : ℚ
  height : ℚ
  nodes : List GossipNode
  running : Bool
  step_count : ℕ
  message_counter : ℕ
  gossip_fanout : ℕ
  transmission_probability : ℚ
  max_hop_count : ℕ
  simulation_speed : ℚ
deriving DecidableEq

/-- Dictionary lookup `self.nodes[i]` / membership `i in self.nodes`. -/
def nodeAt (nodes : List GossipNode) (i : ℕ) : Option GossipNode :=
  nodes.find? (fun nd => nd.node_id = i)

/-- Dictionary update of the node with key `i` (other entries unchanged;
a no-op when the key is absent). -/
def updateNode (nodes : List GossipNode) (i : ℕ) (f : GossipNode → GossipNode) :
    List GossipNode :=
  nodes.map (fun nd => if nd.node_id = i then f nd else nd)

/-- Neighbor set of node `i` (empty when the key is absent). -/
def neighborsOf (nodes : List GossipNode) (i : ℕ) : Finset ℕ :=
  ((nodeAt nodes i).map GossipNode.neighbors).getD ∅

/-- The list of node ids, in dictionary order. -/
def nodeIds (ns : List GossipNode) : List ℕ := ns.map GossipNode.node_id

/-- `GossipSimulator._initialize_nodes`: node `i` is placed at the
position the `random.uniform` oracle `pos` yields for it. -/
def initialize_nodes (num_nodes : ℕ) (pos : ℕ → ℚ × ℚ) : List GossipNode :=
  (List.range num_nodes).map (fun i => GossipNode.init i (pos i).1 (pos i).2)

/-- Add the undirected edge `i ↔ j`
(`node1.add_neighbor(j); node2.add_neighbor(i)`). -/
def addEdge (nodes : List GossipNode) (i j : ℕ) : List GossipNode :=
  updateNode (updateNode nodes i (fun nd => nd.add_neighbor j)) j
    (fun nd => nd.add_neighbor i)

/-- Squared Euclidean distance between two nodes.  The source compares
`((dx)**2 + (dy)**2) ** 0.5 <= connection_radius`; we compare the squares,
which is equivalent for a nonnegative radius. -/
def dist2 (a b : GossipNode) : ℚ :=
  (a.x - b.x) ^ 2 + (a.y - b.y) ^ 2

/-- The ordered pairs `(i, j)` with `i < j < n`, in the iteration order of
the source's nested loops. -/
def allPairs (n : ℕ) : List (ℕ × ℕ) :=
  (List.range n).flatMap (fun i =>
    ((List.range n).filter (fun j => i < j)).map (fun j => (i, j)))

/-- The body of `_build_network_topology`'s double loop: connect `i` and
`j` iff their distance is within the connection radius (`r2` is the
squared radius). -/
def connectClose (r2 : ℚ) (nodes : List GossipNode) (p : ℕ × ℕ) :
    List GossipNode :=
  match nodeAt nodes p.1, nodeAt nodes p.2 with
  | some node1, some node2 =>
      if dist2 node1 node2 ≤ r2 then addEdge nodes p.1 p.2 else nodes
  | _, _ => nodes

/-- Recursive `dfs` helper of `_ensure_connectivity`.  The Python
recursion terminates because `visited` grows strictly; `fuel` bounds the
recursion depth (depth `num_nodes + 1` always suffices, see
`build_network_topology`).  Python iterates the neighbor set in an
unspecified order; the model iterates in ascending order. -/
def dfs (nodes : List GossipNode) : ℕ → Finset ℕ → ℕ → Finset ℕ
  | 0, visited, _ => visited
  | fuel + 1, visited, node_id =>
      if node_id ∈ visited then visited
      else
        (ascList (neighborsOf nodes node_id)).foldl
          (fun vis neighbor => dfs nodes fuel vis neighbor)
          (insert node_id visited)

/-- Loop body of `_ensure_connectivity`'s repair pass: connect the
unvisited node to `pick visited` (the `random.choice(list(visited))`
oracle) and mark it visited. -/
def repairStep (pick : Finset ℕ → ℕ) (acc : List GossipNode × Finset ℕ)
    (node_id : ℕ) : List GossipNode × Finset ℕ :=
  if acc.2.Nonempty then
    let target := pick acc.2
    (addEdge acc.1 node_id target, insert node_id acc.2)
  else acc

/-- `GossipSimulator._ensure_connectivity`.  Unvisited nodes are
processed in ascending order (`set(range(n)) - visited` iteration). -/
def ensure_connectivity (pick : Finset ℕ → ℕ) (num_nodes : ℕ)
    (nodes : List GossipNode) : List GossipNode :=
  let visited := if nodes ≠ [] then dfs nodes (num_nodes + 1) ∅ 0 else ∅
  let unvisited := Finset.range num_nodes \ visited
  ((ascList unvisited).foldl (repairStep pick) (nodes, visited)).1

/-- `GossipSimulator._build_network_topology`. -/
def build_network_topology (pick : Finset ℕ → ℕ) (num_nodes : ℕ)
    (width height : ℚ) (nodes : List GossipNode) : List GossipNode :=
  let connection_radius := min width height * (15 / 100)
  let withEdges :=
    (allPairs num_nodes).foldl (connectClose (connection_radius ^ 2)) nodes
  ensure_connectivity pick num_nodes withEdges

/-- `GossipSimulator.__init__` (defaults: fanout 3, transmission
probability 0.8, max hop count 10, speed 1.0). -/
def GossipSimulator.init (num_nodes : ℕ) (width height : ℚ)
    (pos : ℕ → ℚ × ℚ) (pick : Finset ℕ → ℕ) : GossipSimulator :=
  { num_nodes := num_nodes, width := width, height := height,
    nodes := build_network_topology pick num_nodes width height
      (initialize_nodes num_nodes pos),
    running := false, step_count := 0, message_counter := 0,
    gossip_fanout := 3, transmission_probability := 4/5,
    max_hop_count := 10, simulation_speed := 1 }

/-- The random draws consumed by one `step()` call, abstracted into
functions: `sample population k` is `random.sample(population, k)`;
`trans sender target` is the transmission Bernoulli trial for that
delivery attempt; `inf receiver source` is the infection trial performed
when `receiver` first receives the message originated by `source` this
step (each infected node originates at most one message per step, so the
pair determines the draw); `recov i` is node `i`'s recovery trial. -/
structure StepOracle where
  sample : List ℕ → ℕ → List ℕ
  trans : ℕ → ℕ → Bool
  inf : ℕ → ℕ → Bool
  recov : ℕ → Bool

/-- A sampling oracle is valid when it behaves like `random.sample`:
for `k ≤ |population|` it returns `k` distinct members of the
population. -/
def StepOracle.SampleValid (o : StepOracle) : Prop :=
  ∀ population k, k ≤ population.length →
    (o.sample population k).length = k ∧ (o.sample population k).Nodup ∧
      ∀ x ∈ o.sample population k, x ∈ population

/-- Loop body of `_gossip_step`'s delivery loop, threading the node list
and the (shared, mutable in the source) message: deliver iff the target
key exists, its transmission trial succeeds, and the message's current
hop count is below the max-hop limit; a delivery first increments the
shared hop count, then calls `receive_message`. -/
def deliverStep (o : StepOracle) (source max_hop_count : ℕ)
    (acc : List GossipNode × Message) (target_id : ℕ) :
    List GossipNode × Message :=
  if (nodeAt acc.1 target_id).isSome ∧ o.trans source target_id = true ∧
      acc.2.hop_count < max_hop_count then
    let message := { acc.2 with hop_count := acc.2.hop_count + 1 }
    (updateNode acc.1 target_id
        (fun nd => nd.receive_message message (o.inf target_id source)),
      message)
  else acc

/-- `GossipSimulator._gossip_step`, instrumented: the second component
lists the message created by this call (as created: hop count 0), so
that lifetime statements about created messages can be stated.
`list(node.neighbors)` is modelled in ascending order (Python set
iteration order is unspecified). -/
def GossipSimulator.gossip_step (o : StepOracle) (sim : GossipSimulator)
    (node : GossipNode) : GossipSimulator × List Message :=
  if node.neighbors = ∅ then (sim, [])
  else
    let available_neighbors := ascList node.neighbors
    let num_targets := min sim.gossip_fanout available_neighbors.length
    let targets := o.sample available_neighbors num_targets
    let message : Message :=
      { id := mkMsgId sim.message_counter node.node_id,
        content := "Gossip from node " ++ natStr node.node_id,
        source_node := node.node_id, hop_count := 0 }
    let sim := { sim with message_counter := sim.message_counter + 1 }
    let nodes' :=
      (targets.foldl (deliverStep o node.node_id sim.max_hop_count)
        (sim.nodes, message)).1
    ({ sim with nodes := nodes' }, [message])

/-- `GossipSimulator.step`, instrumented with the list of messages
created during the step. -/
def GossipSimulator.step (o : StepOracle) (sim : GossipSimulator) :
    GossipSimulator × List Message :=
  if sim.running = false then (sim, [])
  else
    let sim := { sim with step_count := sim.step_count + 1 }
    let infected_nodes := sim.nodes.filter (fun nd => nd.state = .INFECTED)
    if infected_nodes = [] then ({ sim with running := false }, [])
    else
      let r := infected_nodes.foldl
        (fun (acc : GossipSimulator × List Message) nd =>
          let p := acc.1.gossip_step o nd
          (p.1, acc.2 ++ p.2))
        (sim, [])
      ({ r.1 with
          nodes := r.1.nodes.map (fun nd => nd.recover (o.recov nd.node_id)) },
        r.2)

/-- `GossipSimulator.start_gossip` (the caller supplies the default
`[0]` when Python's `initial_infected` is `None`). -/
def GossipSimulator.start_gossip (sim : GossipSimulator)
    (initial_infected : List ℕ) : GossipSimulator :=
  let nodes := sim.nodes.map (fun nd =>
    { nd with state := .SUSCEPTIBLE, messages := [], message_history := [] })
  let nodes := initial_infected.foldl
    (fun ns node_id =>
      if (nodeAt ns node_id).isSome then updateNode ns node_id GossipNode.infect
      else ns)
    nodes
  { sim with nodes := nodes, step_count := 0, running := true }

/-- The statistics dictionary returned by `get_statistics`. -/
structure Statistics where
  step : ℕ
  susceptible : ℕ
  infected : ℕ
  removed : ℕ
  total_messages : ℕ
  running : Bool
deriving DecidableEq, Repr

/-- `GossipSimulator.get_statistics`. -/
def GossipSimulator.get_statistics (sim : GossipSimulator) : Statistics :=
  { step := sim.step_count,
    susceptible := sim.nodes.countP (fun nd => nd.state = .SUSCEPTIBLE),
    infected := sim.nodes.countP (fun nd => nd.state = .INFECTED),
    removed := sim.nodes.countP (fun nd => nd.state = .REMOVED),
    total_messages := (sim.nodes.map (fun nd => nd.messages.length)).sum,
    running := sim.running }

/-- `GossipSimulator.reset_simulation`. -/
def GossipSimulator.reset_simulation (sim : GossipSimulator) : GossipSimulator :=
  { sim with running := false, step_count := 0, message_counter := 0,
             nodes := sim.nodes.map (fun nd =>
               { nd with state := .SUSCEPTIBLE, messages := [],
                         message_history := [] }) }

/-- One `key=value` entry of the `**kwargs` passed to
`update_parameters`.  The constructors cover the keys the program's UI
layer ever passes (the five tunable parameters and `simulation_speed`),
the `running` attribute as a representative of the simulator's other
reflectively settable attributes, and `unknown name` for any key that is
not the name of a simulator attribute.  Python keyword arguments form a
dict, so a kwargs list is assumed to mention each key at most once. -/
inductive ParamField where
  | gossip_fanout (v : ℕ)
  | transmission_probability (v : ℚ)
  | max_hop_count (v : ℕ)
  | simulation_speed (v : ℚ)
  | running (v : Bool)
  | infection_probability (v : ℚ)
  | recovery_probability (v : ℚ)
  | unknown (name : String)
deriving DecidableEq

/-- The loop body of `update_parameters`:
`if hasattr(self, key): setattr(self, key, value)`.  The simulator has no
attribute named `infection_probability` or `recovery_probability` (those
live on the nodes), so `hasattr` is false for them as well as for unknown
keys, and the loop leaves the simulator unchanged there. -/
def setIfHasattr (sim : GossipSimulator) : ParamField → GossipSimulator
  | .gossip_fanout v => { sim with gossip_fanout := v }
  | .transmission_probability v => { sim with transmission_probability := v }
  | .max_hop_count v => { sim with max_hop_count := v }
  | .simulation_speed v => { sim with simulation_speed := v }
  | .running v => { sim with running := v }
  | .infection_probability _ => sim
  | .recovery_probability _ => sim
  | .unknown _ => sim

/-- `kwargs['infection_probability']` when the key is present. -/
def findInfectionProb (kwargs : List ParamField) : Option ℚ :=
  kwargs.findSome? (fun p => match p with
    | .infection_probability v => some v
    | _ => none)

/-- `kwargs['recovery_probability']` when the key is present. -/
def findRecoveryProb (kwargs : List ParamField) : Option ℚ :=
  kwargs.findSome? (fun p => match p with
    | .recovery_probability v => some v
    | _ => none)

/-- `GossipSimulator.update_parameters`. -/
def GossipSimulator.update_parameters (sim : GossipSimulator)
    (kwargs : List ParamField) : GossipSimulator :=
  let sim := kwargs.foldl setIfHasattr sim
  let sim := match findInfectionProb kwargs with
    | some v =>
        { sim with nodes := sim.nodes.map (fun nd =>
                     { nd with infection_probability := v }) }
    | none => sim
  match findRecoveryProb kwargs with
  | some v =>
      { sim with nodes := sim.nodes.map (fun nd =>
                   { nd with recovery_probability := v }) }
  | none => sim

/-- Is this kwargs entry a key that names no attribute of the simulator
and no per-node probability (an "unrecognized field")? -/
def ParamField.isUnknown : ParamField → Bool
  | .unknown _ => true
  | _ => false

/-- The error kinds named by the specification. -/
inductive SimError where
  | InvalidArgument
deriving DecidableEq, Repr

/-- Is this kwargs entry one of the five parameters the specification
enumerates as recognized (fanout, transmission probability, max hop
count, default infection probability, default recovery probability)? -/
def recognizedParam : ParamField → Bool
  | .gossip_fanout _ => true
  | .transmission_probability _ => true
  | .max_hop_count _ => true
  | .infection_probability _ => true
  | .recovery_probability _ => true
  | _ => false

/-- The `updateParameters` contract as the specification words it
("Unrecognized fields are rejected (explicit error), not silently
ignored"), for comparison with the source's `update_parameters`. -/
def update_parameters_spec (sim : GossipSimulator) (kwargs : List ParamField) :
    Except SimError GossipSimulator :=
  if kwargs.all recognizedParam then .ok (sim.update_parameters kwargs)
  else .error .InvalidArgument

/-- The `startGossip` contract as the specification words it
("identifiers outside the valid range are rejected with an explicit
error, not silently ignored"), for comparison with the source's
`start_gossip`. -/
def start_gossip_spec (sim : GossipSimulator) (initial_infected : List ℕ) :
    Except SimError GossipSimulator :=
  if initial_infected.all (fun i => (nodeAt sim.nodes i).isSome) then
    .ok (sim.start_gossip initial_infected)
  else .error .InvalidArgument

/-- One call on the engine's public mutating interface. -/
inductive SimOp where
  | start (initial_infected : List ℕ)
  | step (o : StepOracle)
  | reset
  | update (kwargs : List ParamField)

/-- Apply one operation, accumulating the log of every message the
engine has created. -/
def runOp (acc : GossipSimulator × List Message) (op : SimOp) :
    GossipSimulator × List Message :=
  match op with
  | .start ids => (acc.1.start_gossip ids, acc.2)
  | .step o =>
      let p := acc.1.step o
      (p.1, acc.2 ++ p.2)
  | .reset => (acc.1.reset_simulation, acc.2)
  | .update kwargs => (acc.1.update_parameters kwargs, acc.2)

/-- Run a sequence of operations from a given state, logging every
message created over that lifetime. -/
def runOps (sim : GossipSimulator) (ops : List SimOp) :
    GossipSimulator × List Message :=
  ops.foldl runOp (sim, [])

/-- The success condition `_gossip_step` tests before a delivery, apart
from the shared hop-count bound: the target key exists in the node
dictionary and its transmission Bernoulli trial succeeds. -/
def roundCond (o : StepOracle) (ns : List GossipNode) (src t : ℕ) : Bool :=
  (nodeAt ns t).isSome && o.trans src t

/-- The deliveries one gossip round performs, in closed form: starting
from `c` prior successes on the round's shared hop counter, the `j`-th
selected target receives the message iff its own trial succeeds and the
number of successful deliveries before it is still below the max-hop
limit; the delivered copy carries hop count `successes before + 1`. -/
def sharedHopDeliveries (cond : ℕ → Bool) (mh : ℕ) (targets : List ℕ)
    (c : ℕ) : List (ℕ × ℕ) :=
  (List.range targets.length).filterMap (fun j =>
    if cond (targets.getD j 0) ∧ c + (targets.take j).countP cond < mh
    then some (targets.getD j 0, c + (targets.take j).countP cond + 1)
    else none)

/-- Apply a list of deliveries `(target, hop count)` of one round's
message through `receive_message`. -/
def applyDeliveries (o : StepOracle) (src : ℕ) (m : Message)
    (ns : List GossipNode) (ds : List (ℕ × ℕ)) : List GossipNode :=
  ds.foldl (fun ns' d =>
    updateNode ns' d.1
      (fun x => x.receive_message { m with hop_count := d.2 } (o.inf d.1 src)))
    ns

/-- The directed adjacency relation read off a node list: `b` is a
neighbor of `a`. -/
def adjRel (ns : List GossipNode) (a b : ℕ) : Prop :=
  b ∈ neighborsOf ns a

/-- Graph reachability along the neighbor relation. -/
def Reachable (ns : List GossipNode) : ℕ → ℕ → Prop :=
  Relation.ReflTransGen (adjRel ns)

/-- Well-formedness of a node list over ids `0..n-1`: the dictionary
keys are exactly `0..n-1`, the neighbor relation is symmetric, and every
edge endpoint is a valid id. -/
def GoodNodes (n : ℕ) (ns : List GossipNode) : Prop :=
  nodeIds ns = List.range n ∧
  (∀ a b, b ∈ neighborsOf ns a → a ∈ neighborsOf ns b) ∧
  (∀ a b, b ∈ neighborsOf ns a → a < n ∧ b < n)

/-- Parse a list of decimal digit characters back into the number they
denote (used to show decimal rendering is injective). -/
def parseDigits (l : List Char) : ℕ :=
  l.foldl (fun acc c => acc * 10 + (c.toNat - 48)) 0

/-- Is this operation `resetSimulation`? -/
def SimOp.isReset : SimOp → Bool
  | .reset => true
  | _ => false

/-- The message log `msgs` was created while the engine's message counter
advanced from `c0` to `c1`: one message per counter value, each carrying
the identifier minted from its counter value and some origin node. -/
def CreatedSeq (c0 : ℕ) (msgs : List Message) (c1 : ℕ) : Prop :=
  c1 = c0 + msgs.length ∧
    ∀ k, ∀ h : k < msgs.length,
      ∃ nid, (msgs.get ⟨k, h⟩).id = mkMsgId (c0 + k) nid

/-- The per-node state as seen from the engine (`None` when the key is
absent from the node dictionary). -/
def stateOf (sim : GossipSimulator) (i : ℕ) : Option NodeState :=
  (nodeAt sim.nodes i).map GossipNode.state

/-- The SIR rank of node `i`'s state (0 when the key is absent). -/
def rankOf (sim : GossipSimulator) (i : ℕ) : ℕ :=
  ((stateOf sim i).map NodeState.rank).getD 0

/-- Operations that advance or tune the simulation without
re-initializing node states (`step` and `updateParameters`, as opposed to
`startGossip` / `resetSimulation`). -/
def SimOp.isStepOrUpdate : SimOp → Bool
  | .step _ => true
  | .update _ => true
  | _ => false

/-- `ns'` arises from `ns` by a per-node transformation that keeps every
node's id and never lowers its SIR rank.  All state-mutating engine
operations outside `startGossip` / `resetSimulation` relate a node list
to its successor this way. -/
def MapMono (ns ns' : List GossipNode) : Prop :=
  ∃ g : GossipNode → GossipNode,
    ns' = ns.map g ∧ (∀ nd, (g nd).node_id = nd.node_id) ∧
      (∀ nd ∈ ns, nd.state.rank ≤ (g nd).state.rank)

/-! ### Concrete instances used for witnesses and counterexamples -/

/-- A concrete position oracle: node `i` at `(100·i, 100)`. -/
def exPos : ℕ → ℚ × ℚ := fun i => (100 * i, 100)

/-- A concrete repair-choice oracle: the least visited node. -/
def exPick : Finset ℕ → ℕ := fun s => (ascList s).headD 0

/-- A concrete two-node engine.  The connection radius is
`min 800 600 · 0.15 = 90 < 100`, so the two nodes are linked by the
connectivity repair pass. -/
def exSim : GossipSimulator := GossipSimulator.init 2 800 600 exPos exPick

/-- A concrete step oracle: sampling takes a prefix, every transmission
trial fails, every infection trial succeeds, every recovery trial
fails. -/
def exOracle : StepOracle :=
  { sample := fun l k => l.take k, trans := fun _ _ => false,
    inf := fun _ _ => true, recov := fun _ => false }

/-- A concrete step oracle whose transmission trials all succeed. -/
def exOracleT : StepOracle :=
  { sample := fun l k => l.take k, trans := fun _ _ => true,
    inf := fun _ _ => true, recov := fun _ => false }

/-- A hand-written node literal used for concrete runs. -/
def wNode (i : ℕ) (nbrs : Finset ℕ) (st : NodeState) : GossipNode :=
  { node_id := i, x := 0, y := 0, state := st, messages := [],
    neighbors := nbrs, infection_probability := 1/10,
    recovery_probability := 1/20, is_active := true, message_history := [] }

/-- A concrete two-node engine state with the mutual edge `0 ↔ 1`,
written as a literal (the state a two-node construction reaches when both
sampled positions coincide, so the geometric test links them). -/
def wSim : GossipSimulator :=
  { num_nodes := 2, width := 800, height := 600,
    nodes := [wNode 0 {1} .SUSCEPTIBLE, wNode 1 {0} .SUSCEPTIBLE],
    running := false, step_count := 0, message_counter := 0,
    gossip_fanout := 3, transmission_probability := 4/5,
    max_hop_count := 10, simulation_speed := 1 }

/-! ### Basic facts: node ids are stable, states partition the nodes -/

theorem infect_node_id (n : GossipNode) : n.infect.node_id = n.node_id := by
  unfold GossipNode.infect; split <;> rfl

theorem recover_node_id (n : GossipNode) (c : Bool) :
    (n.recover c).node_id = n.node_id := by
  unfold GossipNode.recover; split <;> rfl

theorem receive_message_node_id (n : GossipNode) (m : Message) (c : Bool) :
    (n.receive_message m c).node_id = n.node_id := by
  unfold GossipNode.receive_message
  split
  · rfl
  · dsimp only; split
    · rw [infect_node_id]
    · rfl

theorem add_neighbor_node_id (n : GossipNode) (j : ℕ) :
    (n.add_neighbor j).node_id = n.node_id := rfl

theorem nodeIds_map_of_id_preserving {f : GossipNode → GossipNode}
    (h : ∀ nd, (f nd).node_id = nd.node_id) (ns : List GossipNode) :
    nodeIds (ns.map f) = nodeIds ns := by
  unfold nodeIds
  rw [List.map_map]
  exact List.map_congr_left (fun nd _ => h nd)

theorem updateNode_nodeIds (ns : List GossipNode) (i : ℕ)
    {f : GossipNode → GossipNode} (h : ∀ nd, (f nd).node_id = nd.node_id) :
    nodeIds (updateNode ns i f) = nodeIds ns := by
  unfold updateNode
  apply nodeIds_map_of_id_preserving
  intro nd
  split
  · rw [h]
  · rfl

theorem nodeAt_isSome_iff (ns : List GossipNode) (i : ℕ) :
    (nodeAt ns i).isSome ↔ i ∈ nodeIds ns := by
  unfold nodeAt nodeIds
  rw [List.find?_isSome]
  constructor
  · rintro ⟨nd, hmem, hid⟩
    exact List.mem_map.mpr ⟨nd, hmem, by simpa using hid⟩
  · rintro h
    rcases List.mem_map.mp h with ⟨nd, hmem, hid⟩
    exact ⟨nd, hmem, by simpa using hid⟩

/-- C10 helper: each node is in exactly one of the three states. -/
theorem countP_states (ns : List GossipNode) :
    ns.countP (fun nd => nd.state = NodeState.SUSCEPTIBLE)
      + ns.countP (fun nd => nd.state = NodeState.INFECTED)
      + ns.countP (fun nd => nd.state = NodeState.REMOVED) = ns.length := by
  induction ns with
  | nil => rfl
  | cons nd tl ih =>
      simp only [List.countP_cons, List.length_cons]
      cases h : nd.state <;> simp [h] <;> omega

/-- C10: in every statistics snapshot, the susceptible, infected and
removed counts sum to the total number of nodes, since every node is in
exactly one of the three states. -/
theorem statistics_counts_sum (sim : GossipSimulator) :
    sim.get_statistics.susceptible + sim.get_statistics.infected
      + sim.get_statistics.removed = sim.nodes.length :=
  countP_states sim.nodes

/-! ### Shape preservation: every operation keeps the node ids (hence
the node count) and the `num_nodes` attribute unchanged -/

theorem nodeIds_length (ns : List GossipNode) :
    (nodeIds ns).length = ns.length := List.length_map ns _

theorem addEdge_nodeIds (ns : List GossipNode) (i j : ℕ) :
    nodeIds (addEdge ns i j) = nodeIds ns := by
  unfold addEdge
  rw [updateNode_nodeIds _ _ (fun nd => add_neighbor_node_id nd i),
      updateNode_nodeIds _ _ (fun nd => add_neighbor_node_id nd j)]

theorem connectClose_nodeIds (r2 : ℚ) (ns : List GossipNode) (p : ℕ × ℕ) :
    nodeIds (connectClose r2 ns p) = nodeIds ns := by
  unfold connectClose
  split
  · split
    · exact addEdge_nodeIds ns p.1 p.2
    · rfl
  · rfl

theorem connect_fold_nodeIds (r2 : ℚ) (l : List (ℕ × ℕ)) (ns : List GossipNode) :
    nodeIds (l.foldl (connectClose r2) ns) = nodeIds ns := by
  induction l generalizing ns with
  | nil => rfl
  | cons p tl ih => rw [List.foldl_cons, ih, connectClose_nodeIds]

theorem repair_fold_nodeIds (pick : Finset ℕ → ℕ) (l : List ℕ)
    (acc : List GossipNode × Finset ℕ) :
    nodeIds ((l.foldl (repairStep pick) acc).1) = nodeIds acc.1 := by
  induction l generalizing acc with
  | nil => rfl
  | cons t tl ih =>
      rw [List.foldl_cons, ih]
      unfold repairStep
      split
      · exact addEdge_nodeIds acc.1 t (pick acc.2)
      · rfl

theorem ensure_connectivity_nodeIds (pick : Finset ℕ → ℕ) (n : ℕ)
    (ns : List GossipNode) :
    nodeIds (ensure_connectivity pick n ns) = nodeIds ns := by
  unfold ensure_connectivity
  exact repair_fold_nodeIds pick _ _

theorem initialize_nodes_nodeIds (n : ℕ) (pos : ℕ → ℚ × ℚ) :
    nodeIds (initialize_nodes n pos) = List.range n := by
  unfold initialize_nodes nodeIds
  rw [List.map_map]
  have h : (GossipNode.node_id ∘ fun i => GossipNode.init i (pos i).1 (pos i).2)
      = id := by
    funext i; rfl
  rw [h, List.map_id]

theorem build_network_topology_nodeIds (pick : Finset ℕ → ℕ) (n : ℕ)
    (w h : ℚ) (ns : List GossipNode) :
    nodeIds (build_network_topology pick n w h ns) = nodeIds ns := by
  unfold build_network_topology
  rw [ensure_connectivity_nodeIds, connect_fold_nodeIds]

theorem init_nodeIds (n : ℕ) (w h : ℚ) (pos : ℕ → ℚ × ℚ)
    (pick : Finset ℕ → ℕ) :
    nodeIds (GossipSimulator.init n w h pos pick).nodes = List.range n := by
  unfold GossipSimulator.init
  dsimp only
  rw [build_network_topology_nodeIds, initialize_nodes_nodeIds]

theorem deliver_fold_nodeIds (o : StepOracle) (src mh : ℕ) (targets : List ℕ)
    (acc : List GossipNode × Message) :
    nodeIds ((targets.foldl (deliverStep o src mh) acc).1) = nodeIds acc.1 := by
  induction targets generalizing acc with
  | nil => rfl
  | cons t tl ih =>
      rw [List.foldl_cons, ih]
      unfold deliverStep
      split
      · exact updateNode_nodeIds _ _ (fun nd => receive_message_node_id nd _ _)
      · rfl

theorem gossip_step_nodeIds (o : StepOracle) (sim : GossipSimulator)
    (node : GossipNode) :
    nodeIds (sim.gossip_step o node).1.nodes = nodeIds sim.nodes := by
  unfold GossipSimulator.gossip_step
  split
  · rfl
  · exact deliver_fold_nodeIds o _ _ _ _

theorem gossip_step_num_nodes (o : StepOracle) (sim : GossipSimulator)
    (node : GossipNode) :
    (sim.gossip_step o node).1.num_nodes = sim.num_nodes := by
  unfold GossipSimulator.gossip_step
  split <;> rfl

theorem gossip_fold_nodeIds (o : StepOracle) (l : List GossipNode)
    (acc : GossipSimulator × List Message) :
    nodeIds ((l.foldl (fun acc nd =>
        let p := acc.1.gossip_step o nd
        (p.1, acc.2 ++ p.2)) acc).1.nodes) = nodeIds acc.1.nodes := by
  induction l generalizing acc with
  | nil => rfl
  | cons nd tl ih =>
      rw [List.foldl_cons, ih]
      exact gossip_step_nodeIds o acc.1 nd

theorem gossip_fold_num_nodes (o : StepOracle) (l : List GossipNode)
    (acc : GossipSimulator × List Message) :
    ((l.foldl (fun acc nd =>
        let p := acc.1.gossip_step o nd
        (p.1, acc.2 ++ p.2)) acc).1.num_nodes) = acc.1.num_nodes := by
  induction l generalizing acc with
  | nil => rfl
  | cons nd tl ih =>
      rw [List.foldl_cons, ih]
      exact gossip_step_num_nodes o acc.1 nd

theorem step_nodeIds (o : StepOracle) (sim : GossipSimulator) :
    nodeIds (sim.step o).1.nodes = nodeIds sim.nodes := by
  unfold GossipSimulator.step
  split
  · rfl
  · dsimp only
    split
    · rfl
    · rw [nodeIds_map_of_id_preserving (fun nd => recover_node_id nd _)]
      exact gossip_fold_nodeIds o _ _

theorem step_num_nodes (o : StepOracle) (sim : GossipSimulator) :
    (sim.step o).1.num_nodes = sim.num_nodes := by
  unfold GossipSimulator.step
  split
  · rfl
  · dsimp only
    split
    · rfl
    · exact gossip_fold_num_nodes o _ _

theorem start_gossip_nodeIds (sim : GossipSimulator) (ids : List ℕ) :
    nodeIds (sim.start_gossip ids).nodes = nodeIds sim.nodes := by
  unfold GossipSimulator.start_gossip
  dsimp only
  have base : ∀ (l : List ℕ) (ns : List GossipNode),
      nodeIds (l.foldl (fun ns i =>
        if (nodeAt ns i).isSome then updateNode ns i GossipNode.infect
        else ns) ns) = nodeIds ns := by
    intro l
    induction l with
    | nil => intro ns; rfl
    | cons i tl ih =>
        intro ns
        rw [List.foldl_cons, ih]
        split
        · exact updateNode_nodeIds ns i infect_node_id
        · rfl
  rw [base ids]
  apply nodeIds_map_of_id_preserving
  intro nd
  rfl

theorem reset_nodeIds (sim : GossipSimulator) :
    nodeIds sim.reset_simulation.nodes = nodeIds sim.nodes := by
  unfold GossipSimulator.reset_simulation
  dsimp only
  apply nodeIds_map_of_id_preserving
  intro nd
  rfl

theorem update_parameters_nodeIds (sim : GossipSimulator)
    (kwargs : List ParamField) :
    nodeIds (sim.update_parameters kwargs).nodes = nodeIds sim.nodes := by
  unfold GossipSimulator.update_parameters
  have loop : ∀ (l : List ParamField) (s : GossipSimulator),
      nodeIds (l.foldl setIfHasattr s).nodes = nodeIds s.nodes := by
    intro l
    induction l with
    | nil => intro s; rfl
    | cons p tl ih =>
        intro s
        rw [List.foldl_cons, ih]
        cases p <;> rfl
  have hm : ∀ (f : GossipNode → GossipNode),
      (∀ nd, (f nd).node_id = nd.node_id) → ∀ (ns : List GossipNode)
        (gs : List ℕ), nodeIds ns = gs → nodeIds (ns.map f) = gs :=
    fun f h ns gs hg => (nodeIds_map_of_id_preserving h ns).trans hg
  cases hInf : findInfectionProb kwargs <;> cases hRec : findRecoveryProb kwargs <;>
    simp only [hInf, hRec]
  · exact loop kwargs sim
  · apply hm
    · intro nd
      rfl
    · exact loop kwargs sim
  · apply hm
    · intro nd
      rfl
    · exact loop kwargs sim
  · apply hm
    · intro nd
      rfl
    · apply hm
      · intro nd
        rfl
      · exact loop kwargs sim

theorem update_parameters_num_nodes (sim : GossipSimulator)
    (kwargs : List ParamField) :
    (sim.update_parameters kwargs).num_nodes = sim.num_nodes := by
  unfold GossipSimulator.update_parameters
  have loop : ∀ (l : List ParamField) (s : GossipSimulator),
      (l.foldl setIfHasattr s).num_nodes = s.num_nodes := by
    intro l
    induction l with
    | nil => intro s; rfl
    | cons p tl ih =>
        intro s
        rw [List.foldl_cons, ih]
        cases p <;> rfl
  cases hInf : findInfectionProb kwargs <;> cases hRec : findRecoveryProb kwargs <;>
    simp only [hInf, hRec] <;> exact loop kwargs sim

theorem runOp_nodeIds (acc : GossipSimulator × List Message) (op : SimOp) :
    nodeIds (runOp acc op).1.nodes = nodeIds acc.1.nodes := by
  cases op with
  | start ids => exact start_gossip_nodeIds acc.1 ids
  | step o => exact step_nodeIds o acc.1
  | reset => exact reset_nodeIds acc.1
  | update kwargs => exact update_parameters_nodeIds acc.1 kwargs

theorem runOp_num_nodes (acc : GossipSimulator × List Message) (op : SimOp) :
    (runOp acc op).1.num_nodes = acc.1.num_nodes := by
  cases op with
  | start ids => rfl
  | step o => exact step_num_nodes o acc.1
  | reset => rfl
  | update kwargs => exact update_parameters_num_nodes acc.1 kwargs

theorem runOps_nodeIds (sim : GossipSimulator) (ops : List SimOp) :
    nodeIds (runOps sim ops).1.nodes = nodeIds sim.nodes := by
  unfold runOps
  have gen : ∀ (l : List SimOp) (acc : GossipSimulator × List Message),
      nodeIds (l.foldl runOp acc).1.nodes = nodeIds acc.1.nodes := by
    intro l
    induction l with
    | nil => intro acc; rfl
    | cons op tl ih =>
        intro acc
        rw [List.foldl_cons, ih, runOp_nodeIds]
  exact gen ops (sim, [])

theorem runOps_num_nodes (sim : GossipSimulator) (ops : List SimOp) :
    (runOps sim ops).1.num_nodes = sim.num_nodes := by
  unfold runOps
  have gen : ∀ (l : List SimOp) (acc : GossipSimulator × List Message),
      (l.foldl runOp acc).1.num_nodes = acc.1.num_nodes := by
    intro l
    induction l with
    | nil => intro acc; rfl
    | cons op tl ih =>
        intro acc
        rw [List.foldl_cons, ih, runOp_num_nodes]
  exact gen ops (sim, [])

/-! ### C9: statistics after a reset -/

theorem reset_simulation_get_statistics (sim : GossipSimulator) :
    sim.reset_simulation.get_statistics =
      { step := 0, susceptible := sim.nodes.length, infected := 0,
        removed := 0, total_messages := 0, running := false } := by
  unfold GossipSimulator.reset_simulation GossipSimulator.get_statistics
  dsimp only
  simp only [Statistics.mk.injEq, List.countP_map, List.map_map]
  refine ⟨trivial, ?_, ?_, ?_, ?_, trivial⟩
  · apply List.countP_eq_length.mpr
    intro a _
    rfl
  · apply List.countP_eq_zero.mpr
    intro a _
    simp [Function.comp]
  · apply List.countP_eq_zero.mpr
    intro a _
    simp [Function.comp]
  · apply List.sum_eq_zero
    intro x hx
    rcases List.mem_map.mp hx with ⟨nd, _, hnd⟩
    exact hnd.symm

/-- C9: after any call to `resetSimulation()`, regardless of prior engine
history (any construction followed by any sequence of engine operations),
`getStatistics()` returns step 0, susceptible = nodeCount, infected 0,
removed 0, total messages 0, and running false. -/
theorem reset_statistics_after_any_history (n : ℕ) (w h : ℚ)
    (pos : ℕ → ℚ × ℚ) (pick : Finset ℕ → ℕ) (ops : List SimOp) :
    ((runOps (GossipSimulator.init n w h pos pick) ops).1.reset_simulation).get_statistics
      = { step := 0, susceptible := n, infected := 0, removed := 0,
          total_messages := 0, running := false } := by
  rw [reset_simulation_get_statistics]
  have hids : nodeIds (runOps (GossipSimulator.init n w h pos pick) ops).1.nodes
      = List.range n :=
    (runOps_nodeIds _ ops).trans (init_nodeIds n w h pos pick)
  have hlen : (runOps (GossipSimulator.init n w h pos pick) ops).1.nodes.length
      = n := by
    rw [← nodeIds_length, hids, List.length_range]
  rw [hlen]

/-! ### C7 / C8: stepping protocol -/

theorem gossip_step_msgs (o : StepOracle) (sim : GossipSimulator)
    (nd : GossipNode) :
    (sim.gossip_step o nd).2 =
      if nd.neighbors = ∅ then ([] : List Message)
      else [{ id := mkMsgId sim.message_counter nd.node_id,
              content := "Gossip from node " ++ natStr nd.node_id,
              source_node := nd.node_id, hop_count := 0 }] := by
  unfold GossipSimulator.gossip_step
  split <;> simp_all

theorem gossip_step_message_counter (o : StepOracle) (sim : GossipSimulator)
    (nd : GossipNode) :
    (sim.gossip_step o nd).1.message_counter =
      sim.message_counter + (sim.gossip_step o nd).2.length := by
  unfold GossipSimulator.gossip_step
  split <;> rfl

theorem gossip_fold_msgs_sources (o : StepOracle) (l : List GossipNode)
    (acc : GossipSimulator × List Message) :
    ((l.foldl (fun acc nd =>
        let p := acc.1.gossip_step o nd
        (p.1, acc.2 ++ p.2)) acc).2).map Message.source_node =
      acc.2.map Message.source_node ++
        (l.filter (fun nd => nd.neighbors ≠ ∅)).map GossipNode.node_id := by
  induction l generalizing acc with
  | nil => simp
  | cons nd tl ih =>
      rw [List.foldl_cons, ih]
      by_cases h : nd.neighbors = ∅
      · simp [gossip_step_msgs, h]
      · simp [gossip_step_msgs, h]

/-- C7: while the engine is running, the gossip rounds run by one
`step()` call originate exactly from the nodes that were INFECTED at the
start of that step (those with a nonempty neighbor set each run one
round); a node infected during the step's propagation runs no round in
the same step. -/
theorem step_uses_prestep_snapshot (sim : GossipSimulator) (o : StepOracle)
    (hrun : sim.running = true) :
    (sim.step o).2.map Message.source_node =
      ((sim.nodes.filter (fun nd => nd.state = NodeState.INFECTED)).filter
        (fun nd => nd.neighbors ≠ ∅)).map GossipNode.node_id := by
  unfold GossipSimulator.step
  rw [hrun]
  split
  · rename_i hx
    exact absurd hx (by decide)
  · dsimp only
    split
    · rename_i hempty
      rw [hempty]
      rfl
    · have := gossip_fold_msgs_sources o
        (sim.nodes.filter (fun nd => nd.state = NodeState.INFECTED))
        ({ sim with step_count := sim.step_count + 1 }, [])
      rw [hrun] at this
      simpa using this

/-- C8: `step()` on a non-running engine is a no-op; a step whose
pre-step infected snapshot is empty sets `running` to false; and once
`running` is false it stays false under any further sequence of `step()`
calls. -/
theorem step_running_contract (sim : GossipSimulator) (o : StepOracle) :
    (sim.running = false → sim.step o = (sim, [])) ∧
    (sim.running = true →
      sim.nodes.filter (fun nd => nd.state = NodeState.INFECTED) = [] →
      (sim.step o).1.running = false) ∧
    (∀ os : List StepOracle, sim.running = false →
      (os.foldl (fun s oo => (s.step oo).1) sim).running = false) := by
  refine ⟨?_, ?_, ?_⟩
  · intro h
    unfold GossipSimulator.step
    rw [h, if_pos rfl]
  · intro hrun hempty
    unfold GossipSimulator.step
    rw [hrun]
    split
    · rename_i hx
      exact absurd hx (by decide)
    · dsimp only
      split
      · rfl
      · rename_i hne
        exact absurd hempty hne
  · intro os
    induction os generalizing sim with
    | nil => intro h; exact h
    | cons oo tl ih =>
        intro h
        rw [List.foldl_cons]
        apply ih
        have hstep : sim.step oo = (sim, []) := by
          unfold GossipSimulator.step
          rw [h, if_pos rfl]
        rw [hstep]
        exact h

/-! ### Facts about the ascending set enumeration -/

theorem mem_ascList {a : ℕ} {s : Finset ℕ} : a ∈ ascList s ↔ a ∈ s := by
  rcases s with ⟨val, nd⟩
  revert nd
  refine Quotient.inductionOn val ?_
  intro l nd
  show a ∈ List.insertionSort (· ≤ ·) l ↔ _
  rw [(List.perm_insertionSort (· ≤ ·) l).mem_iff]
  exact Iff.rfl

theorem ascList_ne_nil {s : Finset ℕ} (h : s.Nonempty) : ascList s ≠ [] := by
  rcases h with ⟨a, ha⟩
  intro hnil
  have hm := mem_ascList.mpr ha
  rw [hnil] at hm
  exact absurd hm (List.not_mem_nil a)

theorem exPick_mem {s : Finset ℕ} (h : s.Nonempty) : exPick s ∈ s := by
  unfold exPick
  rcases hl : ascList s with _ | ⟨b, tl⟩
  · exact absurd hl (ascList_ne_nil h)
  · apply mem_ascList.mp
    rw [hl]
    exact List.mem_cons_self b tl

/-! ### C1: unrecognized fields in `updateParameters` -/

theorem setIfHasattr_unknown (s : GossipSimulator) (p : ParamField)
    (h : p.isUnknown = true) : setIfHasattr s p = s := by
  cases p <;> simp_all [ParamField.isUnknown, setIfHasattr]

theorem foldl_setIfHasattr_filter (l : List ParamField) (s : GossipSimulator) :
    (l.filter (fun p => ! p.isUnknown)).foldl setIfHasattr s
      = l.foldl setIfHasattr s := by
  induction l generalizing s with
  | nil => rfl
  | cons p tl ih =>
      by_cases h : p.isUnknown = true
      · rw [List.filter_cons_of_neg (by simp [h]), List.foldl_cons,
            setIfHasattr_unknown s p h]
        exact ih s
      · rw [List.filter_cons_of_pos (by simp [Bool.not_eq_true] at h ⊢; exact h),
            List.foldl_cons, List.foldl_cons]
        exact ih (setIfHasattr s p)

theorem findInfectionProb_filter (l : List ParamField) :
    findInfectionProb (l.filter (fun p => ! p.isUnknown)) = findInfectionProb l := by
  induction l with
  | nil => rfl
  | cons p tl ih =>
      cases p with
      | unknown name =>
          rw [List.filter_cons_of_neg (by simp [ParamField.isUnknown])]
          exact ih
      | infection_probability v =>
          rw [List.filter_cons_of_pos (by rfl)]
          rfl
      | gossip_fanout v =>
          rw [List.filter_cons_of_pos (by rfl)]
          exact ih
      | transmission_probability v =>
          rw [List.filter_cons_of_pos (by rfl)]
          exact ih
      | max_hop_count v =>
          rw [List.filter_cons_of_pos (by rfl)]
          exact ih
      | simulation_speed v =>
          rw [List.filter_cons_of_pos (by rfl)]
          exact ih
      | running v =>
          rw [List.filter_cons_of_pos (by rfl)]
          exact ih
      | recovery_probability v =>
          rw [List.filter_cons_of_pos (by rfl)]
          exact ih

theorem findRecoveryProb_filter (l : List ParamField) :
    findRecoveryProb (l.filter (fun p => ! p.isUnknown)) = findRecoveryProb l := by
  induction l with
  | nil => rfl
  | cons p tl ih =>
      cases p with
      | unknown name =>
          rw [List.filter_cons_of_neg (by simp [ParamField.isUnknown])]
          exact ih
      | recovery_probability v =>
          rw [List.filter_cons_of_pos (by rfl)]
          rfl
      | gossip_fanout v =>
          rw [List.filter_cons_of_pos (by rfl)]
          exact ih
      | transmission_probability v =>
          rw [List.filter_cons_of_pos (by rfl)]
          exact ih
      | max_hop_count v =>
          rw [List.filter_cons_of_pos (by rfl)]
          exact ih
      | simulation_speed v =>
          rw [List.filter_cons_of_pos (by rfl)]
          exact ih
      | running v =>
          rw [List.filter_cons_of_pos (by rfl)]
          exact ih
      | infection_probability v =>
          rw [List.filter_cons_of_pos (by rfl)]
          exact ih

/-- C1 counterexample: `updateParameters` with the unrecognized field
`unknownField` does not raise InvalidArgument as the specification
demands (the call returns normally and leaves the engine unchanged),
diverging from the specification-worded contract. -/
theorem updateParameters_unknown_field_counterexample :
    update_parameters_spec wSim [.unknown "unknownField"]
        = .error .InvalidArgument ∧
      wSim.update_parameters [.unknown "unknownField"] = wSim :=
  ⟨rfl, rfl⟩

/-- C1 (amended): a call to `updateParameters` never raises for
unrecognized fields; fields that name no simulator attribute are
silently ignored (dropping them from the call leaves the result
unchanged), and a call consisting only of such fields leaves the engine
— every parameter and every per-node probability — unchanged. -/
theorem update_parameters_silently_ignores_unknown (sim : GossipSimulator)
    (kwargs : List ParamField) :
    sim.update_parameters kwargs
        = sim.update_parameters (kwargs.filter (fun p => ! p.isUnknown)) ∧
      ((∀ p ∈ kwargs, p.isUnknown = true) → sim.update_parameters kwargs = sim) := by
  have hmain : sim.update_parameters kwargs
      = sim.update_parameters (kwargs.filter (fun p => ! p.isUnknown)) := by
    unfold GossipSimulator.update_parameters
    rw [foldl_setIfHasattr_filter, findInfectionProb_filter,
        findRecoveryProb_filter]
  refine ⟨hmain, ?_⟩
  intro hall
  have hnil : kwargs.filter (fun p => ! p.isUnknown) = [] := by
    apply List.filter_eq_nil_iff.mpr
    intro p hp
    rw [hall p hp]
    decide
  rw [hmain, hnil]
  rfl

/-- C1 witness for the amended statement at a concrete input. -/
theorem update_parameters_silently_ignores_unknown_witness :
    wSim.update_parameters [.unknown "unknownField"] = wSim :=
  (update_parameters_silently_ignores_unknown wSim
    [.unknown "unknownField"]).2 (by decide)

/-! ### C2: out-of-range identifiers in `startGossip` -/

/-- C2 counterexample: `startGossip([5])` on a two-node engine does not
raise InvalidArgument as the specification demands; the unknown
identifier is silently ignored (the call behaves exactly like
`startGossip([])` and starts the engine). -/
theorem startGossip_unknown_id_counterexample :
    start_gossip_spec wSim [5] = .error .InvalidArgument ∧
      wSim.start_gossip [5] = wSim.start_gossip [] ∧
      (wSim.start_gossip [5]).running = true :=
  ⟨rfl, rfl, rfl⟩

theorem start_fold_filter (ids : List ℕ) (P : ℕ → Bool) (ns : List GossipNode)
    (hP : ∀ i, P i = true ↔ i ∈ nodeIds ns) :
    ids.foldl (fun ns i =>
        if (nodeAt ns i).isSome then updateNode ns i GossipNode.infect else ns) ns
      = (ids.filter P).foldl (fun ns i =>
          if (nodeAt ns i).isSome then updateNode ns i GossipNode.infect else ns)
          ns := by
  induction ids generalizing ns with
  | nil => rfl
  | cons i tl ih =>
      rw [List.foldl_cons]
      by_cases h : P i = true
      · have hsome : (nodeAt ns i).isSome = true :=
          (nodeAt_isSome_iff ns i).mpr ((hP i).mp h)
        rw [List.filter_cons_of_pos h, List.foldl_cons]
        rw [if_pos hsome]
        apply ih
        intro j
        rw [hP j, updateNode_nodeIds ns i infect_node_id]
      · have hnone : ¬ (nodeAt ns i).isSome = true :=
          fun hs => h ((hP i).mpr ((nodeAt_isSome_iff ns i).mp hs))
        rw [List.filter_cons_of_neg (by simpa using h)]
        rw [if_neg hnone]
        exact ih ns hP

/-- C2 (amended): `startGossip` raises no error for identifiers that name
no existing node; it behaves exactly as if those identifiers had been
removed from the argument list (they are silently ignored, the remaining
valid identifiers are infected, and the engine starts). -/
theorem start_gossip_filters_invalid (sim : GossipSimulator) (ids : List ℕ) :
    sim.start_gossip ids =
      sim.start_gossip (ids.filter (fun i => (nodeAt sim.nodes i).isSome)) := by
  unfold GossipSimulator.start_gossip
  dsimp only
  congr 1
  have hids : nodeIds (sim.nodes.map (fun nd =>
      { nd with state := NodeState.SUSCEPTIBLE, messages := [],
                message_history := [] })) = nodeIds sim.nodes := by
    apply nodeIds_map_of_id_preserving
    intro nd
    rfl
  apply start_fold_filter
  intro i
  rw [nodeAt_isSome_iff, hids]

/-- C7 witness: a started two-node engine, concrete step oracle. -/
theorem step_uses_prestep_snapshot_witness :
    ((wSim.start_gossip [0]).step exOracle).2.map Message.source_node =
      ((((wSim.start_gossip [0]).nodes.filter
          (fun nd => nd.state = NodeState.INFECTED)).filter
            (fun nd => nd.neighbors ≠ ∅)).map GossipNode.node_id) :=
  step_uses_prestep_snapshot (wSim.start_gossip [0]) exOracle rfl

/-- C8 witness: the three step-contract clauses at concrete states. -/
theorem step_running_contract_witness :
    wSim.step exOracle = (wSim, []) ∧
      ((wSim.start_gossip []).step exOracle).1.running = false ∧
      ([exOracle].foldl (fun s oo => (s.step oo).1) wSim).running = false := by
  refine ⟨(step_running_contract wSim exOracle).1 rfl,
          (step_running_contract (wSim.start_gossip []) exOracle).2.1 rfl ?_,
          (step_running_contract wSim exOracle).2.2 [exOracle] rfl⟩
  rfl

/-! ### C6: the gossip round -/

theorem roundCond_congr (o : StepOracle) (src : ℕ)
    {ns ns' : List GossipNode} (h : nodeIds ns' = nodeIds ns) :
    roundCond o ns' src = roundCond o ns src := by
  funext t
  unfold roundCond
  have : (nodeAt ns' t).isSome = (nodeAt ns t).isSome := by
    rw [Bool.eq_iff_iff, nodeAt_isSome_iff, nodeAt_isSome_iff, h]
  rw [this]

theorem sharedHopDeliveries_cons (cond : ℕ → Bool) (mh t : ℕ) (ts : List ℕ)
    (c : ℕ) :
    sharedHopDeliveries cond mh (t :: ts) c
      = (if cond t ∧ c < mh then [(t, c + 1)] else [])
          ++ sharedHopDeliveries cond mh ts (c + if cond t then 1 else 0) := by
  unfold sharedHopDeliveries
  rw [List.length_cons, List.range_succ_eq_map, List.filterMap_cons,
      List.filterMap_map]
  have hshift : ((fun j : ℕ =>
      if cond ((t :: ts).getD j 0) ∧ c + ((t :: ts).take j).countP cond < mh
      then some ((t :: ts).getD j 0, c + ((t :: ts).take j).countP cond + 1)
      else none) ∘ Nat.succ)
      = (fun j : ℕ =>
        if cond (ts.getD j 0)
            ∧ (c + if cond t then 1 else 0) + (ts.take j).countP cond < mh
        then some (ts.getD j 0,
          (c + if cond t then 1 else 0) + (ts.take j).countP cond + 1)
        else none) := by
    funext j
    simp only [Function.comp]
    have h1 : (t :: ts).getD (j + 1) 0 = ts.getD j 0 := rfl
    have h2 : ((t :: ts).take (j + 1)).countP cond
        = (if cond t then 1 else 0) + (ts.take j).countP cond := by
      rw [List.take_succ_cons, List.countP_cons]
      cases h : cond t <;> simp [h] <;> omega
    rw [h1, h2]
    have h3 : c + ((if cond t then 1 else 0) + (ts.take j).countP cond)
        = (c + if cond t then 1 else 0) + (ts.take j).countP cond := by omega
    rw [h3]
  rw [hshift]
  cases h : cond t <;> by_cases hlt : c < mh <;>
    simp [h, hlt]

theorem applyDeliveries_hop_irrel (o : StepOracle) (src : ℕ) (m : Message)
    (h : ℕ) (ns : List GossipNode) (ds : List (ℕ × ℕ)) :
    applyDeliveries o src { m with hop_count := h } ns ds
      = applyDeliveries o src m ns ds := rfl

theorem deliver_fold_closed (o : StepOracle) (src mh : ℕ)
    (targets : List ℕ) :
    ∀ (ns : List GossipNode) (msg : Message) (c : ℕ),
      msg.hop_count = min mh c →
      targets.foldl (deliverStep o src mh) (ns, msg)
        = (applyDeliveries o src msg ns
            (sharedHopDeliveries (roundCond o ns src) mh targets c),
          { msg with
              hop_count := min mh (c + targets.countP (roundCond o ns src)) }) := by
  induction targets with
  | nil =>
      intro ns msg c hmsg
      unfold sharedHopDeliveries applyDeliveries
      simp only [List.length_nil, List.range_zero, List.filterMap_nil,
        List.foldl_nil, List.countP_nil, Nat.add_zero]
      rw [← hmsg]
  | cons t ts ih =>
      intro ns msg c hmsg
      rw [List.foldl_cons, sharedHopDeliveries_cons, List.countP_cons]
      by_cases hcond : roundCond o ns src t = true
      · rcases Bool.and_eq_true _ _ |>.mp hcond with ⟨hsome, htrans⟩
        by_cases hlt : c < mh
        · have hcmin : min mh c = c := by omega
          have hstep : deliverStep o src mh (ns, msg) t
              = (updateNode ns t (fun x => x.receive_message
                    { msg with hop_count := c + 1 } (o.inf t src)),
                 { msg with hop_count := c + 1 }) := by
            unfold deliverStep
            rw [if_pos ⟨hsome, htrans, by rw [hmsg, hcmin]; omega⟩]
            rw [hmsg, hcmin]
          rw [hstep]
          have hids : nodeIds (updateNode ns t (fun x => x.receive_message
              { msg with hop_count := c + 1 } (o.inf t src))) = nodeIds ns :=
            updateNode_nodeIds ns t (fun nd => receive_message_node_id nd _ _)
          have hmsg' : ({ msg with hop_count := c + 1 } : Message).hop_count
              = min mh (c + 1) := by
            simp only []
            omega
          rw [ih _ _ _ hmsg', roundCond_congr o src hids]
          rw [applyDeliveries_hop_irrel]
          simp only [hcond, hlt, and_true, if_pos trivial, if_true,
            List.singleton_append]
          rw [Prod.mk.injEq, Message.mk.injEq]
          exact ⟨rfl, rfl, rfl, rfl, by omega⟩
        · have hstep : deliverStep o src mh (ns, msg) t = (ns, msg) := by
            unfold deliverStep
            rw [if_neg]
            rintro ⟨-, -, hh⟩
            rw [hmsg] at hh
            omega
          rw [hstep]
          have hmsg' : msg.hop_count = min mh (c + 1) := by
            rw [hmsg]
            omega
          rw [ih _ _ _ hmsg']
          simp only [hcond, hlt, and_false, if_false, List.nil_append,
            if_true]
          rw [Prod.mk.injEq, Message.mk.injEq]
          exact ⟨rfl, rfl, rfl, rfl, by omega⟩
      · have hstep : deliverStep o src mh (ns, msg) t = (ns, msg) := by
          unfold deliverStep
          rw [if_neg]
          rintro ⟨h1, h2, -⟩
          apply hcond
          unfold roundCond
          rw [Bool.and_eq_true]
          exact ⟨h1, h2⟩
        rw [hstep, ih _ _ _ hmsg]
        have hc : roundCond o ns src t = false := by
          cases hb : roundCond o ns src t
          · rfl
          · exact absurd hb hcond
        simp only [hc, Bool.false_eq_true, false_and, if_false,
          List.nil_append, Nat.add_zero]

theorem sharedHopDeliveries_congr {cond cond' : ℕ → Bool} (mh : ℕ)
    (targets : List ℕ) (c : ℕ) (h : ∀ t ∈ targets, cond t = cond' t) :
    sharedHopDeliveries cond mh targets c
      = sharedHopDeliveries cond' mh targets c := by
  unfold sharedHopDeliveries
  apply List.filterMap_congr
  intro j hj
  have hjlt : j < targets.length := List.mem_range.mp hj
  have hget : targets.getD j 0 ∈ targets := by
    rw [List.getD_eq_getElem targets 0 hjlt]
    exact List.getElem_mem hjlt
  have hcnt : (targets.take j).countP cond = (targets.take j).countP cond' :=
    List.countP_congr (fun t ht => by rw [h t (List.take_subset j targets ht)])
  rw [h _ hget, hcnt]

/-- C6: in each gossip round run by an infected node with at least one
neighbor, exactly one message is created (hop count 0, origin that node,
fresh identifier from the message counter, counter bumped by one), and
the round's deliveries follow the shared-hop-count discipline: writing
`sharedHopDeliveries` for the closed form, the `j`-th selected target
receives the message through `receiveMessage` iff its own Bernoulli
transmission trial succeeds and the number of earlier successful
deliveries of the round (the shared message's current hop count) is
still below the max-hop limit, the delivered copy carrying hop count
`earlier successes + 1`. -/
theorem gossip_round_contract (o : StepOracle) (sim : GossipSimulator)
    (nd : GossipNode) (hnb : nd.neighbors ≠ ∅)
    (hval : ∀ t ∈ o.sample (ascList nd.neighbors)
        (min sim.gossip_fanout (ascList nd.neighbors).length),
      (nodeAt sim.nodes t).isSome = true) :
    ∃ m : Message,
      (sim.gossip_step o nd).2 = [m] ∧
      m.hop_count = 0 ∧
      m.source_node = nd.node_id ∧
      m.id = mkMsgId sim.message_counter nd.node_id ∧
      (sim.gossip_step o nd).1.message_counter = sim.message_counter + 1 ∧
      (sim.gossip_step o nd).1.nodes
        = applyDeliveries o nd.node_id m sim.nodes
            (sharedHopDeliveries (fun t => o.trans nd.node_id t)
              sim.max_hop_count
              (o.sample (ascList nd.neighbors)
                (min sim.gossip_fanout (ascList nd.neighbors).length)) 0) := by
  refine ⟨{ id := mkMsgId sim.message_counter nd.node_id,
            content := "Gossip from node " ++ natStr nd.node_id,
            source_node := nd.node_id, hop_count := 0 }, ?_, rfl, rfl, rfl,
          ?_, ?_⟩
  · unfold GossipSimulator.gossip_step
    rw [if_neg hnb]
  · unfold GossipSimulator.gossip_step
    rw [if_neg hnb]
  · unfold GossipSimulator.gossip_step
    rw [if_neg hnb]
    dsimp only
    rw [deliver_fold_closed o nd.node_id sim.max_hop_count _ _ _ 0
      (Nat.min_zero sim.max_hop_count).symm]
    dsimp only
    congr 1
    apply sharedHopDeliveries_congr
    intro t ht
    unfold roundCond
    rw [hval t ht, Bool.true_and]

/-- C6 witness: the round contract instantiated at a concrete engine,
node and oracle. -/
theorem gossip_round_contract_witness :
    ∃ m : Message,
      (wSim.gossip_step exOracle (wNode 0 {1} NodeState.SUSCEPTIBLE)).2 = [m] ∧
      m.hop_count = 0 ∧
      m.source_node = (wNode 0 {1} NodeState.SUSCEPTIBLE).node_id ∧
      m.id = mkMsgId wSim.message_counter
        (wNode 0 {1} NodeState.SUSCEPTIBLE).node_id ∧
      (wSim.gossip_step exOracle
          (wNode 0 {1} NodeState.SUSCEPTIBLE)).1.message_counter
        = wSim.message_counter + 1 ∧
      (wSim.gossip_step exOracle (wNode 0 {1} NodeState.SUSCEPTIBLE)).1.nodes
        = applyDeliveries exOracle (wNode 0 {1} NodeState.SUSCEPTIBLE).node_id m
            wSim.nodes
            (sharedHopDeliveries
              (fun t => exOracle.trans
                (wNode 0 {1} NodeState.SUSCEPTIBLE).node_id t)
              wSim.max_hop_count
              (exOracle.sample
                (ascList (wNode 0 {1} NodeState.SUSCEPTIBLE).neighbors)
                (min wSim.gossip_fanout
                  (ascList (wNode 0 {1} NodeState.SUSCEPTIBLE).neighbors).length))
              0) :=
  gossip_round_contract exOracle wSim (wNode 0 {1} NodeState.SUSCEPTIBLE)
    (by decide) (by decide)

/-! ### C4: forward-only state transitions -/

theorem infect_state (n : GossipNode) :
    n.infect.state = if n.state = NodeState.SUSCEPTIBLE
      then NodeState.INFECTED else n.state := by
  unfold GossipNode.infect
  split <;> rfl

theorem recover_state (n : GossipNode) (coin : Bool) :
    (n.recover coin).state = if n.state = NodeState.INFECTED ∧ coin = true
      then NodeState.REMOVED else n.state := by
  unfold GossipNode.recover
  split <;> rfl

theorem receive_message_state (n : GossipNode) (m : Message) (c : Bool) :
    (n.receive_message m c).state = n.state ∨
      (n.state = NodeState.SUSCEPTIBLE ∧
        (n.receive_message m c).state = NodeState.INFECTED) := by
  unfold GossipNode.receive_message
  split
  · left
    rfl
  · dsimp only
    split
    · rename_i h
      right
      refine ⟨h.1, ?_⟩
      unfold GossipNode.infect
      rw [if_pos h.1]
    · left
      rfl

theorem infect_rank (n : GossipNode) : n.state.rank ≤ n.infect.state.rank := by
  rw [infect_state]
  split
  · rename_i h
    rw [h]
    decide
  · exact le_refl _

theorem recover_rank (n : GossipNode) (coin : Bool) :
    n.state.rank ≤ (n.recover coin).state.rank := by
  rw [recover_state]
  split
  · rename_i h
    rw [h.1]
    decide
  · exact le_refl _

theorem receive_message_rank (n : GossipNode) (m : Message) (c : Bool) :
    n.state.rank ≤ (n.receive_message m c).state.rank := by
  rcases receive_message_state n m c with h | ⟨h1, h2⟩
  · rw [h]
  · rw [h1, h2]
    decide

theorem mapMono_refl (ns : List GossipNode) : MapMono ns ns :=
  ⟨id, (List.map_id ns).symm, fun _ => rfl, fun _ _ => le_refl _⟩

theorem mapMono_trans {ns1 ns2 ns3 : List GossipNode} :
    MapMono ns1 ns2 → MapMono ns2 ns3 → MapMono ns1 ns3 := by
  rintro ⟨g1, rfl, hid1, hrk1⟩ ⟨g2, rfl, hid2, hrk2⟩
  refine ⟨g2 ∘ g1, List.map_map g2 g1 ns1, ?_, ?_⟩
  · intro nd
    exact (hid2 (g1 nd)).trans (hid1 nd)
  · intro nd hm
    exact (hrk1 nd hm).trans (hrk2 (g1 nd) (List.mem_map_of_mem g1 hm))

theorem mapMono_map (ns : List GossipNode) (g : GossipNode → GossipNode)
    (hid : ∀ nd, (g nd).node_id = nd.node_id)
    (hrk : ∀ nd, nd.state.rank ≤ (g nd).state.rank) :
    MapMono ns (ns.map g) :=
  ⟨g, rfl, hid, fun nd _ => hrk nd⟩

theorem mapMono_updateNode (ns : List GossipNode) (i : ℕ)
    (f : GossipNode → GossipNode) (hid : ∀ nd, (f nd).node_id = nd.node_id)
    (hrk : ∀ nd, nd.state.rank ≤ (f nd).state.rank) :
    MapMono ns (updateNode ns i f) := by
  refine ⟨fun nd => if nd.node_id = i then f nd else nd, rfl, ?_, ?_⟩
  · intro nd
    dsimp only
    split
    · exact hid nd
    · rfl
  · intro nd _
    dsimp only
    split
    · exact hrk nd
    · exact le_refl _

theorem deliver_fold_mapMono (o : StepOracle) (src mh : ℕ) (targets : List ℕ)
    (acc : List GossipNode × Message) :
    MapMono acc.1 ((targets.foldl (deliverStep o src mh) acc).1) := by
  induction targets generalizing acc with
  | nil => exact mapMono_refl acc.1
  | cons t ts ih =>
      rw [List.foldl_cons]
      refine mapMono_trans ?_ (ih _)
      unfold deliverStep
      split
      · exact mapMono_updateNode _ _ _
          (fun nd => receive_message_node_id nd _ _)
          (fun nd => receive_message_rank nd _ _)
      · exact mapMono_refl _

theorem gossip_step_mapMono (o : StepOracle) (sim : GossipSimulator)
    (nd : GossipNode) :
    MapMono sim.nodes (sim.gossip_step o nd).1.nodes := by
  unfold GossipSimulator.gossip_step
  split
  · exact mapMono_refl _
  · exact deliver_fold_mapMono o _ _ _ _

theorem gossip_fold_mapMono (o : StepOracle) (l : List GossipNode)
    (acc : GossipSimulator × List Message) :
    MapMono acc.1.nodes ((l.foldl (fun acc nd =>
        let p := acc.1.gossip_step o nd
        (p.1, acc.2 ++ p.2)) acc).1.nodes) := by
  induction l generalizing acc with
  | nil => exact mapMono_refl _
  | cons nd tl ih =>
      rw [List.foldl_cons]
      exact mapMono_trans (gossip_step_mapMono o acc.1 nd) (ih _)

theorem step_mapMono (o : StepOracle) (sim : GossipSimulator) :
    MapMono sim.nodes (sim.step o).1.nodes := by
  unfold GossipSimulator.step
  split
  · exact mapMono_refl _
  · dsimp only
    split
    · exact mapMono_refl _
    · refine mapMono_trans ?_ (mapMono_map _ _
        (fun nd => recover_node_id nd _) (fun nd => recover_rank nd _))
      exact gossip_fold_mapMono o _ _

theorem update_parameters_mapMono (sim : GossipSimulator)
    (kwargs : List ParamField) :
    MapMono sim.nodes (sim.update_parameters kwargs).nodes := by
  unfold GossipSimulator.update_parameters
  have hloop : ∀ (l : List ParamField) (s : GossipSimulator),
      (l.foldl setIfHasattr s).nodes = s.nodes := by
    intro l
    induction l with
    | nil => intro s; rfl
    | cons p tl ih =>
        intro s
        rw [List.foldl_cons, ih]
        cases p <;> rfl
  cases hInf : findInfectionProb kwargs <;>
    cases hRec : findRecoveryProb kwargs <;>
    simp only [hInf, hRec] <;> rw [hloop]
  · exact mapMono_refl _
  · apply mapMono_map
    · intro nd
      rfl
    · intro nd
      exact le_refl _
  · apply mapMono_map
    · intro nd
      rfl
    · intro nd
      exact le_refl _
  · rename_i v1 v2
    have h1 : MapMono sim.nodes
        (sim.nodes.map (fun nd =>
          { nd with infection_probability := v1 })) := by
      apply mapMono_map
      · intro nd
        rfl
      · intro nd
        exact le_refl _
    have h2 : MapMono (sim.nodes.map (fun nd =>
          { nd with infection_probability := v1 }))
        ((sim.nodes.map (fun nd =>
          { nd with infection_probability := v1 })).map (fun nd =>
          { nd with recovery_probability := v2 })) := by
      apply mapMono_map
      · intro nd
        rfl
      · intro nd
        exact le_refl _
    exact mapMono_trans h1 h2

theorem runOps_mapMono (sim : GossipSimulator) (ops : List SimOp)
    (h : ∀ op ∈ ops, op.isStepOrUpdate = true) :
    MapMono sim.nodes (runOps sim ops).1.nodes := by
  unfold runOps
  have gen : ∀ (l : List SimOp) (acc : GossipSimulator × List Message),
      (∀ op ∈ l, op.isStepOrUpdate = true) →
      MapMono acc.1.nodes ((l.foldl runOp acc).1.nodes) := by
    intro l
    induction l with
    | nil => intro acc _; exact mapMono_refl _
    | cons op tl ih =>
        intro acc hall
        rw [List.foldl_cons]
        refine mapMono_trans ?_ (ih _ (fun x hx => hall x (List.mem_cons_of_mem op hx)))
        have hop := hall op (List.mem_cons_self op tl)
        cases op with
        | start ids => exact Bool.noConfusion hop
        | reset => exact Bool.noConfusion hop
        | step o => exact step_mapMono o acc.1
        | update kwargs => exact update_parameters_mapMono acc.1 kwargs
  exact gen ops (sim, []) h

theorem nodeAt_map_of_id_preserving {g : GossipNode → GossipNode}
    (hid : ∀ nd, (g nd).node_id = nd.node_id) (ns : List GossipNode) (i : ℕ) :
    nodeAt (ns.map g) i = (nodeAt ns i).map g := by
  unfold nodeAt
  rw [List.find?_map]
  have hp : ((fun nd : GossipNode => decide (nd.node_id = i)) ∘ g)
      = (fun nd : GossipNode => decide (nd.node_id = i)) := by
    funext nd
    simp only [Function.comp]
    rw [hid nd]
  rw [hp]

theorem rank_mono_of_mapMono {ns ns' : List GossipNode}
    (h : MapMono ns ns') (i : ℕ) :
    ((nodeAt ns i).map (fun nd => nd.state.rank)).getD 0
      ≤ ((nodeAt ns' i).map (fun nd => nd.state.rank)).getD 0 := by
  rcases h with ⟨g, rfl, hid, hrk⟩
  rw [nodeAt_map_of_id_preserving hid]
  cases hfind : nodeAt ns i with
  | none => exact le_refl _
  | some nd =>
      simp only [Option.map_some', Option.getD_some]
      exact hrk nd (List.mem_of_find?_eq_some hfind)

/-- C4 counterexample: `resetSimulation` is an engine operation that can
occur between two `startGossip` calls and moves an INFECTED node's state
backward to SUSCEPTIBLE. -/
theorem reset_moves_state_backward_counterexample :
    stateOf (wSim.start_gossip [0]) 0 = some NodeState.INFECTED ∧
      stateOf ((wSim.start_gossip [0]).reset_simulation) 0
        = some NodeState.SUSCEPTIBLE ∧
      rankOf ((wSim.start_gossip [0]).reset_simulation) 0
        < rankOf (wSim.start_gossip [0]) 0 := by
  refine ⟨by decide, by decide, by decide⟩

/-- C4 (amended): excluding the two re-initializing operations
(`startGossip` and `resetSimulation`, which reset every node to
SUSCEPTIBLE), node states only move forward along
SUSCEPTIBLE → INFECTED → REMOVED: `infect` only turns SUSCEPTIBLE into
INFECTED, `recover` only turns INFECTED into REMOVED (on a successful
trial), `receiveMessage` either keeps the state or infects a SUSCEPTIBLE
node, and over any sequence of `step` / `updateParameters` operations
every node's SIR rank is non-decreasing (so no state ever moves backward
or jumps from SUSCEPTIBLE to REMOVED in one transition). -/
theorem state_transitions_forward :
    (∀ n : GossipNode, n.infect.state =
      if n.state = NodeState.SUSCEPTIBLE then NodeState.INFECTED
      else n.state) ∧
    (∀ (n : GossipNode) (coin : Bool), (n.recover coin).state =
      if n.state = NodeState.INFECTED ∧ coin = true then NodeState.REMOVED
      else n.state) ∧
    (∀ (n : GossipNode) (m : Message) (c : Bool),
      (n.receive_message m c).state = n.state ∨
        (n.state = NodeState.SUSCEPTIBLE ∧
          (n.receive_message m c).state = NodeState.INFECTED)) ∧
    (∀ (sim : GossipSimulator) (ops : List SimOp),
      (∀ op ∈ ops, op.isStepOrUpdate = true) →
      ∀ i : ℕ, rankOf sim i ≤ rankOf (runOps sim ops).1 i) := by
  refine ⟨infect_state, recover_state, receive_message_state, ?_⟩
  intro sim ops h i
  have hm := rank_mono_of_mapMono (runOps_mapMono sim ops h) i
  unfold rankOf stateOf
  rw [Option.map_map, Option.map_map]
  exact hm

/-- C4 witness for the amended statement at concrete inputs. -/
theorem state_transitions_forward_witness :
    ((wNode 0 {1} NodeState.SUSCEPTIBLE).infect.state =
      if (wNode 0 {1} NodeState.SUSCEPTIBLE).state = NodeState.SUSCEPTIBLE
      then NodeState.INFECTED else (wNode 0 {1} NodeState.SUSCEPTIBLE).state) ∧
    rankOf (wSim.start_gossip [0]) 1
      ≤ rankOf (runOps (wSim.start_gossip [0]) [SimOp.step exOracleT]).1 1 :=
  ⟨state_transitions_forward.1 (wNode 0 {1} NodeState.SUSCEPTIBLE),
   state_transitions_forward.2.2.2 (wSim.start_gossip [0])
     [SimOp.step exOracleT] (by decide) 1⟩

/-! ### C3: message identifier uniqueness -/

theorem digitChar_ne_underscore : ∀ d, d < 10 → Nat.digitChar d ≠ '_' := by
  decide

theorem digitChar_toNat : ∀ d, d < 10 → (Nat.digitChar d).toNat - 48 = d := by
  decide

theorem digitChars_ne_underscore (fuel : ℕ) :
    ∀ n : ℕ, ∀ c ∈ digitChars fuel n, c ≠ '_' := by
  induction fuel with
  | zero =>
      intro n c hc
      exact absurd hc (List.not_mem_nil c)
  | succ fuel ih =>
      intro n c hc
      unfold digitChars at hc
      by_cases h : n < 10
      · rw [if_pos h] at hc
        rw [List.mem_singleton.mp hc]
        exact digitChar_ne_underscore n h
      · rw [if_neg h] at hc
        rcases List.mem_append.mp hc with h1 | h2
        · exact ih _ c h1
        · rw [List.mem_singleton.mp h2]
          exact digitChar_ne_underscore _ (Nat.mod_lt n (by omega))

theorem parseDigits_append_singleton (xs : List Char) (c : Char) :
    parseDigits (xs ++ [c]) = parseDigits xs * 10 + (c.toNat - 48) := by
  unfold parseDigits
  rw [List.foldl_append]
  rfl

theorem parseDigits_digitChars (fuel : ℕ) :
    ∀ n : ℕ, n < 10 ^ fuel → parseDigits (digitChars fuel n) = n := by
  induction fuel with
  | zero =>
      intro n h
      have hn : n = 0 := by
        have : (10 : ℕ) ^ 0 = 1 := pow_zero 10
        omega
      subst hn
      rfl
  | succ fuel ih =>
      intro n h
      unfold digitChars
      by_cases hn : n < 10
      · rw [if_pos hn]
        have : parseDigits [Nat.digitChar n]
            = 0 * 10 + ((Nat.digitChar n).toNat - 48) := rfl
        rw [this, digitChar_toNat n hn]
        omega
      · rw [if_neg hn]
        have hdiv : n / 10 < 10 ^ fuel := by
          have hp : (10 : ℕ) ^ (fuel + 1) = 10 ^ fuel * 10 := pow_succ 10 fuel
          rw [Nat.div_lt_iff_lt_mul (by omega : (0:ℕ) < 10)]
          omega
        rw [parseDigits_append_singleton, ih _ hdiv,
            digitChar_toNat _ (Nat.mod_lt n (by omega))]
        omega

theorem natStr_lt_pow (n : ℕ) : n < 10 ^ (n + 1) :=
  lt_of_lt_of_le (Nat.lt_pow_self (by norm_num) n)
    (Nat.pow_le_pow_right (by norm_num) (Nat.le_succ n))

theorem natStr_data (n : ℕ) : (natStr n).data = digitChars (n + 1) n := rfl

theorem natStr_data_inj {m n : ℕ} (h : (natStr m).data = (natStr n).data) :
    m = n := by
  rw [natStr_data, natStr_data] at h
  have h1 := parseDigits_digitChars (m + 1) m (natStr_lt_pow m)
  have h2 := parseDigits_digitChars (n + 1) n (natStr_lt_pow n)
  rw [← h1, ← h2, h]

theorem append_underscore_inj :
    ∀ (l1 l2 r1 r2 : List Char), '_' ∉ l1 → '_' ∉ l2 →
      l1 ++ '_' :: r1 = l2 ++ '_' :: r2 → l1 = l2 ∧ r1 = r2 := by
  intro l1
  induction l1 with
  | nil =>
      intro l2 r1 r2 _ h2 h
      cases l2 with
      | nil => simpa using h
      | cons b bs =>
          rw [List.nil_append] at h
          injection h with hb ht
          rw [← hb] at h2
          exact absurd (List.mem_cons_self '_' bs) h2
  | cons a as ih =>
      intro l2 r1 r2 h1 h2 h
      cases l2 with
      | nil =>
          rw [List.nil_append] at h
          injection h with hb ht
          exact absurd (List.mem_cons_self a as) (hb ▸ h1)
      | cons b bs =>
          injection h with hb ht
          rcases ih bs r1 r2 (fun hx => h1 (List.mem_cons_of_mem a hx))
            (fun hx => h2 (List.mem_cons_of_mem b hx)) ht with ⟨he, hr⟩
          exact ⟨by rw [hb, he], hr⟩

theorem mkMsgId_inj {c1 n1 c2 n2 : ℕ}
    (h : mkMsgId c1 n1 = mkMsgId c2 n2) : c1 = c2 ∧ n1 = n2 := by
  unfold mkMsgId at h
  have hd := congrArg String.data h
  simp only [String.data_append] at hd
  have hshape : ∀ cc nn : ℕ,
      "msg_".data ++ (natStr cc).data ++ "_".data ++ (natStr nn).data
        = "msg_".data ++ ((natStr cc).data ++ '_' :: (natStr nn).data) := by
    intro cc nn
    rw [List.append_assoc, List.append_assoc]
    rfl
  rw [hshape, hshape] at hd
  have hmid : (natStr c1).data ++ '_' :: (natStr n1).data
      = (natStr c2).data ++ '_' :: (natStr n2).data :=
    List.append_cancel_left hd
  have hu1 : '_' ∉ (natStr c1).data := by
    rw [natStr_data]
    intro hx
    exact digitChars_ne_underscore _ _ _ hx rfl
  have hu2 : '_' ∉ (natStr c2).data := by
    rw [natStr_data]
    intro hx
    exact digitChars_ne_underscore _ _ _ hx rfl
  rcases append_underscore_inj _ _ _ _ hu1 hu2 hmid with ⟨hc, hn⟩
  exact ⟨natStr_data_inj hc, natStr_data_inj (by rw [hn])⟩

theorem createdSeq_nil (c : ℕ) : CreatedSeq c [] c :=
  ⟨by simp, fun k h => absurd h (by simp)⟩

theorem createdSeq_append {c0 c1 c2 : ℕ} {A B : List Message}
    (hA : CreatedSeq c0 A c1) (hB : CreatedSeq c1 B c2) :
    CreatedSeq c0 (A ++ B) c2 := by
  obtain ⟨hlA, hidA⟩ := hA
  obtain ⟨hlB, hidB⟩ := hB
  refine ⟨by rw [List.length_append]; omega, ?_⟩
  intro k h
  have hlen : k < A.length + B.length := by
    rw [List.length_append] at h
    exact h
  by_cases hk : k < A.length
  · obtain ⟨nid, hid⟩ := hidA k hk
    refine ⟨nid, ?_⟩
    rw [List.get_eq_getElem, List.getElem_append_left hk]
    rw [List.get_eq_getElem] at hid
    exact hid
  · have hge : A.length ≤ k := by omega
    have hkb : k - A.length < B.length := by omega
    obtain ⟨nid, hid⟩ := hidB (k - A.length) hkb
    refine ⟨nid, ?_⟩
    rw [List.get_eq_getElem, List.getElem_append_right hge]
    rw [List.get_eq_getElem] at hid
    have harith : c1 + (k - A.length) = c0 + k := by omega
    rw [← harith]
    exact hid

theorem gossip_step_createdSeq (o : StepOracle) (sim : GossipSimulator)
    (nd : GossipNode) :
    CreatedSeq sim.message_counter (sim.gossip_step o nd).2
      (sim.gossip_step o nd).1.message_counter := by
  have hmsg := gossip_step_msgs o sim nd
  have hctr := gossip_step_message_counter o sim nd
  by_cases h : nd.neighbors = ∅
  · rw [if_pos h] at hmsg
    rw [hmsg] at hctr
    rw [hmsg, hctr]
    simpa using createdSeq_nil sim.message_counter
  · rw [if_neg h] at hmsg
    rw [hmsg] at hctr
    rw [hmsg, hctr]
    refine ⟨by simp, ?_⟩
    intro k hk
    have hk0 : k = 0 := by
      simp only [List.length_singleton] at hk
      omega
    subst hk0
    exact ⟨nd.node_id, rfl⟩

theorem gossip_fold_createdSeq (o : StepOracle) (l : List GossipNode)
    (acc : GossipSimulator × List Message) (c0 : ℕ)
    (hacc : CreatedSeq c0 acc.2 acc.1.message_counter) :
    CreatedSeq c0 ((l.foldl (fun acc nd =>
        let p := acc.1.gossip_step o nd
        (p.1, acc.2 ++ p.2)) acc).2)
      ((l.foldl (fun acc nd =>
        let p := acc.1.gossip_step o nd
        (p.1, acc.2 ++ p.2)) acc).1.message_counter) := by
  induction l generalizing acc with
  | nil => exact hacc
  | cons nd tl ih =>
      rw [List.foldl_cons]
      exact ih _ (createdSeq_append hacc (gossip_step_createdSeq o acc.1 nd))

theorem step_createdSeq (o : StepOracle) (sim : GossipSimulator) :
    CreatedSeq sim.message_counter (sim.step o).2
      (sim.step o).1.message_counter := by
  unfold GossipSimulator.step
  split
  · exact createdSeq_nil _
  · dsimp only
    split
    · exact createdSeq_nil _
    · exact gossip_fold_createdSeq o _ _ _ (createdSeq_nil _)

theorem update_parameters_message_counter (sim : GossipSimulator)
    (kwargs : List ParamField) :
    (sim.update_parameters kwargs).message_counter = sim.message_counter := by
  unfold GossipSimulator.update_parameters
  have hloop : ∀ (l : List ParamField) (s : GossipSimulator),
      (l.foldl setIfHasattr s).message_counter = s.message_counter := by
    intro l
    induction l with
    | nil => intro s; rfl
    | cons p tl ih =>
        intro s
        rw [List.foldl_cons, ih]
        cases p <;> rfl
  cases hInf : findInfectionProb kwargs <;>
    cases hRec : findRecoveryProb kwargs <;>
    simp only [hInf, hRec] <;> exact hloop kwargs sim

theorem runOps_createdSeq (sim : GossipSimulator) (ops : List SimOp)
    (h : ∀ op ∈ ops, op.isReset = false) :
    CreatedSeq sim.message_counter (runOps sim ops).2
      (runOps sim ops).1.message_counter := by
  unfold runOps
  have gen : ∀ (l : List SimOp) (acc : GossipSimulator × List Message)
      (c0 : ℕ), (∀ op ∈ l, op.isReset = false) →
      CreatedSeq c0 acc.2 acc.1.message_counter →
      CreatedSeq c0 ((l.foldl runOp acc).2)
        ((l.foldl runOp acc).1.message_counter) := by
    intro l
    induction l with
    | nil =>
        intro acc c0 _ hacc
        exact hacc
    | cons op tl ih =>
        intro acc c0 hall hacc
        rw [List.foldl_cons]
        refine ih _ c0 (fun x hx => hall x (List.mem_cons_of_mem op hx)) ?_
        cases op with
        | start ids => exact hacc
        | reset =>
            exact Bool.noConfusion (hall SimOp.reset (List.mem_cons_self _ tl))
        | step o => exact createdSeq_append hacc (step_createdSeq o acc.1)
        | update kwargs =>
            show CreatedSeq c0 acc.2
              (acc.1.update_parameters kwargs).message_counter
            rw [update_parameters_message_counter]
            exact hacc
  exact gen ops (sim, []) sim.message_counter h (createdSeq_nil _)

/-- C3 counterexample: `resetSimulation` resets the message counter, so
an engine that starts, steps, resets, starts and steps again creates two
distinct messages carrying the identical identifier `msg_0_0`. -/
theorem message_id_collision_across_reset :
    ((runOps wSim [SimOp.start [0], SimOp.step exOracle, SimOp.reset,
        SimOp.start [0], SimOp.step exOracle]).2.map Message.id)
      = ["msg_0_0", "msg_0_0"] ∧
    ¬ ((runOps wSim [SimOp.start [0], SimOp.step exOracle, SimOp.reset,
        SimOp.start [0], SimOp.step exOracle]).2.map Message.id).Nodup := by
  exact ⟨by decide, by decide⟩

/-- C3 (amended): message identifiers never collide across any
interleaving of `startGossip` and `step` calls on one engine — the
message counter is monotone and each identifier embeds its counter value
— but `resetSimulation` resets the counter to zero, so identifiers can
repeat across a reset. -/
theorem message_ids_unique_without_reset (sim : GossipSimulator)
    (ops : List SimOp) (hnr : ∀ op ∈ ops, op.isReset = false) :
    ((runOps sim ops).2.map Message.id).Nodup := by
  obtain ⟨hlen, hids⟩ := runOps_createdSeq sim ops hnr
  rw [List.nodup_iff_injective_get]
  intro a b hab
  have ha : (a : ℕ) < (runOps sim ops).2.length := by
    have h2 := a.2
    simpa using h2
  have hb : (b : ℕ) < (runOps sim ops).2.length := by
    have h2 := b.2
    simpa using h2
  obtain ⟨na, hA⟩ := hids a ha
  obtain ⟨nb, hB⟩ := hids b hb
  have hgm : ∀ (i : Fin (((runOps sim ops).2.map Message.id).length))
      (hi : (i : ℕ) < (runOps sim ops).2.length),
      ((runOps sim ops).2.map Message.id).get i
        = ((runOps sim ops).2.get ⟨i, hi⟩).id := by
    intro i hi
    rw [List.get_eq_getElem, List.get_eq_getElem, List.getElem_map]
  rw [hgm a ha, hgm b hb, hA, hB] at hab
  rcases mkMsgId_inj hab with ⟨hc, -⟩
  exact Fin.ext (by omega)

/-- C3 witness: a reset-free lifetime on a concrete engine. -/
theorem message_ids_unique_without_reset_witness :
    ((runOps wSim [SimOp.start [0], SimOp.step exOracle,
        SimOp.step exOracle]).2.map Message.id).Nodup :=
  message_ids_unique_without_reset wSim
    [SimOp.start [0], SimOp.step exOracle, SimOp.step exOracle] (by decide)

/-! ### C5: topology construction -/

theorem nodeAt_key {ns : List GossipNode} {i : ℕ} {nd : GossipNode}
    (h : nodeAt ns i = some nd) : nd.node_id = i := by
  have hp := List.find?_some h
  simpa using hp

theorem nodeAt_updateNode (ns : List GossipNode) (i a : ℕ)
    (f : GossipNode → GossipNode) (hid : ∀ nd, (f nd).node_id = nd.node_id) :
    nodeAt (updateNode ns i f) a
      = if a = i then (nodeAt ns a).map f else nodeAt ns a := by
  have hmap : nodeAt (updateNode ns i f) a
      = (nodeAt ns a).map (fun nd => if nd.node_id = i then f nd else nd) := by
    unfold updateNode
    exact nodeAt_map_of_id_preserving
      (fun nd => by split; exacts [hid nd, rfl]) ns a
  rw [hmap]
  cases hfind : nodeAt ns a with
  | none => split <;> rfl
  | some nd =>
      have hkey : nd.node_id = a := nodeAt_key hfind
      by_cases hai : a = i
      · rw [if_pos hai]
        simp only [Option.map_some']
        rw [if_pos (by rw [hkey, hai])]
  -- in the a ≠ i case the inner condition is false
      · rw [if_neg hai]
        simp only [Option.map_some']
        rw [if_neg (by rw [hkey]; exact hai)]

theorem neighborsOf_eq_of_nodeAt {ns : List GossipNode} {i : ℕ} :
    neighborsOf ns i = ((nodeAt ns i).map GossipNode.neighbors).getD ∅ := rfl

theorem mem_neighborsOf_addEdge {ns : List GossipNode} {i j a b : ℕ} :
    b ∈ neighborsOf (addEdge ns i j) a ↔
      b ∈ neighborsOf ns a
        ∨ ((nodeAt ns i).isSome = true ∧ a = i ∧ b = j)
        ∨ ((nodeAt ns j).isSome = true ∧ a = j ∧ b = i) := by
  unfold addEdge
  rw [neighborsOf_eq_of_nodeAt,
      nodeAt_updateNode _ j a _ (fun nd => add_neighbor_node_id nd i),
      nodeAt_updateNode _ i a _ (fun nd => add_neighbor_node_id nd j)]
  by_cases haj : a = j <;> by_cases hai : a = i
  · -- a = j and a = i (so i = j)
    rw [if_pos haj, if_pos hai]
    cases hfind : nodeAt ns a with
    | none =>
        subst haj
        subst hai
        simp [hfind, neighborsOf_eq_of_nodeAt]
    | some nd =>
        subst haj
        subst hai
        simp only [Option.map_some', Option.getD_some, hfind]
        unfold GossipNode.add_neighbor
        simp [Finset.mem_insert, neighborsOf_eq_of_nodeAt, hfind]
        tauto
  · rw [if_pos haj, if_neg hai]
    cases hfind : nodeAt ns a with
    | none =>
        subst haj
        simp [hfind, neighborsOf_eq_of_nodeAt, fun h => hai h]
    | some nd =>
        subst haj
        simp only [Option.map_some', Option.getD_some, hfind]
        unfold GossipNode.add_neighbor
        simp [Finset.mem_insert, neighborsOf_eq_of_nodeAt, hfind,
          fun h => hai h]
        tauto
  · rw [if_neg haj, if_pos hai]
    cases hfind : nodeAt ns a with
    | none =>
        subst hai
        simp [hfind, neighborsOf_eq_of_nodeAt, fun h => haj h]
    | some nd =>
        subst hai
        simp only [Option.map_some', Option.getD_some, hfind]
        unfold GossipNode.add_neighbor
        simp [Finset.mem_insert, neighborsOf_eq_of_nodeAt, hfind,
          fun h => haj h]
        tauto
  · rw [if_neg haj, if_neg hai]
    rw [neighborsOf_eq_of_nodeAt]
    simp [fun h => hai h, fun h => haj h]

theorem neighborsOf_subset_addEdge {ns : List GossipNode} {i j a : ℕ} :
    neighborsOf ns a ⊆ neighborsOf (addEdge ns i j) a :=
  fun b hb => mem_neighborsOf_addEdge.mpr (Or.inl hb)

theorem reachable_mono_addEdge {ns : List GossipNode} {i j a b : ℕ}
    (h : Reachable ns a b) : Reachable (addEdge ns i j) a b := by
  induction h with
  | refl => exact Relation.ReflTransGen.refl
  | tail hab hrel ih => exact ih.tail (neighborsOf_subset_addEdge hrel)

theorem lt_of_nodeAt_isSome {n : ℕ} {ns : List GossipNode} {i : ℕ}
    (hids : nodeIds ns = List.range n) (hi : (nodeAt ns i).isSome = true) :
    i < n := by
  have hm := (nodeAt_isSome_iff ns i).mp hi
  rw [hids] at hm
  exact List.mem_range.mp hm

theorem nodeAt_isSome_of_lt {n : ℕ} {ns : List GossipNode} {i : ℕ}
    (hids : nodeIds ns = List.range n) (hi : i < n) :
    (nodeAt ns i).isSome = true := by
  apply (nodeAt_isSome_iff ns i).mpr
  rw [hids]
  exact List.mem_range.mpr hi

theorem goodNodes_addEdge {n : ℕ} {ns : List GossipNode}
    (hg : GoodNodes n ns) {i j : ℕ}
    (hi : (nodeAt ns i).isSome = true) (hj : (nodeAt ns j).isSome = true) :
    GoodNodes n (addEdge ns i j) := by
  obtain ⟨hids, hsym, hbnd⟩ := hg
  have hin : i < n := lt_of_nodeAt_isSome hids hi
  have hjn : j < n := lt_of_nodeAt_isSome hids hj
  refine ⟨by rw [addEdge_nodeIds]; exact hids, ?_, ?_⟩
  · intro a b hb
    rcases mem_neighborsOf_addEdge.mp hb with hold | ⟨_, rfl, rfl⟩ | ⟨_, rfl, rfl⟩
    · exact mem_neighborsOf_addEdge.mpr (Or.inl (hsym a b hold))
    · exact mem_neighborsOf_addEdge.mpr (Or.inr (Or.inr ⟨hj, rfl, rfl⟩))
    · exact mem_neighborsOf_addEdge.mpr (Or.inr (Or.inl ⟨hi, rfl, rfl⟩))
  · intro a b hb
    rcases mem_neighborsOf_addEdge.mp hb with hold | ⟨_, rfl, rfl⟩ | ⟨_, rfl, rfl⟩
    · exact hbnd a b hold
    · exact ⟨hin, hjn⟩
    · exact ⟨hjn, hin⟩

theorem initialize_nodes_good (n : ℕ) (pos : ℕ → ℚ × ℚ) :
    GoodNodes n (initialize_nodes n pos) := by
  have hnb : ∀ a, neighborsOf (initialize_nodes n pos) a = ∅ := by
    intro a
    rw [neighborsOf_eq_of_nodeAt]
    cases hfind : nodeAt (initialize_nodes n pos) a with
    | none => rfl
    | some nd =>
        have hmem : nd ∈ initialize_nodes n pos :=
          List.mem_of_find?_eq_some hfind
        rcases List.mem_map.mp hmem with ⟨ii, _, rfl⟩
        simp [GossipNode.init]
  refine ⟨initialize_nodes_nodeIds n pos, ?_, ?_⟩
  · intro a b hb
    rw [hnb a] at hb
    exact absurd hb (Finset.not_mem_empty b)
  · intro a b hb
    rw [hnb a] at hb
    exact absurd hb (Finset.not_mem_empty b)

theorem goodNodes_connectClose {n : ℕ} {ns : List GossipNode}
    (hg : GoodNodes n ns) (r2 : ℚ) (p : ℕ × ℕ) :
    GoodNodes n (connectClose r2 ns p) := by
  unfold connectClose
  cases h1 : nodeAt ns p.1 with
  | none => exact hg
  | some a =>
      cases h2 : nodeAt ns p.2 with
      | none => exact hg
      | some b =>
          dsimp only
          by_cases hd : dist2 a b ≤ r2
          · rw [if_pos hd]
            exact goodNodes_addEdge hg (by rw [h1]; rfl) (by rw [h2]; rfl)
          · rw [if_neg hd]
            exact hg

theorem goodNodes_connect_fold {n : ℕ} (r2 : ℚ) (l : List (ℕ × ℕ))
    {ns : List GossipNode} (hg : GoodNodes n ns) :
    GoodNodes n (l.foldl (connectClose r2) ns) := by
  induction l generalizing ns with
  | nil => exact hg
  | cons p tl ih =>
      rw [List.foldl_cons]
      exact ih (goodNodes_connectClose hg r2 p)

theorem dfs_invariant (ns : List GossipNode) (P : ℕ → Prop)
    (hstep : ∀ a b, P a → b ∈ neighborsOf ns a → P b) :
    ∀ (fuel : ℕ) (visited : Finset ℕ) (i : ℕ),
      (∀ v ∈ visited, P v) → P i →
      ∀ v ∈ dfs ns fuel visited i, P v := by
  intro fuel
  induction fuel with
  | zero =>
      intro visited i hvis _ v hv
      exact hvis v hv
  | succ fuel ih =>
      intro visited i hvis hi v hv
      unfold dfs at hv
      by_cases hmem : i ∈ visited
      · rw [if_pos hmem] at hv
        exact hvis v hv
      · rw [if_neg hmem] at hv
        have hfold : ∀ (l : List ℕ) (vis : Finset ℕ),
            (∀ x ∈ vis, P x) → (∀ x ∈ l, P x) →
            ∀ x ∈ l.foldl (fun vis j => dfs ns fuel vis j) vis, P x := by
          intro l
          induction l with
          | nil =>
              intro vis hv' _ x hx
              exact hv' x hx
          | cons y ys ihl =>
              intro vis hv' hl x hx
              rw [List.foldl_cons] at hx
              exact ihl _
                (fun z hz => ih vis y hv' (hl y (List.mem_cons_self y ys)) z hz)
                (fun z hz => hl z (List.mem_cons_of_mem y hz)) x hx
        apply hfold _ _ ?_ ?_ v hv
        · intro x hx
          rcases Finset.mem_insert.mp hx with rfl | hx
          exacts [hi, hvis x hx]
        · intro x hx
          exact hstep i x hi (mem_ascList.mp hx)

theorem dfs_subset (ns : List GossipNode) :
    ∀ (fuel : ℕ) (visited : Finset ℕ) (i : ℕ),
      visited ⊆ dfs ns fuel visited i := by
  intro fuel
  induction fuel with
  | zero =>
      intro visited i
      exact Finset.Subset.refl _
  | succ fuel ih =>
      intro visited i
      unfold dfs
      by_cases hmem : i ∈ visited
      · rw [if_pos hmem]
      · rw [if_neg hmem]
        have hfold : ∀ (l : List ℕ) (vis : Finset ℕ),
            vis ⊆ l.foldl (fun vis j => dfs ns fuel vis j) vis := by
          intro l
          induction l with
          | nil =>
              intro vis
              exact Finset.Subset.refl _
          | cons y ys ihl =>
              intro vis
              rw [List.foldl_cons]
              exact (ih vis y).trans (ihl _)
        exact (Finset.subset_insert i visited).trans (hfold _ _)

theorem zero_mem_dfs (ns : List GossipNode) (fuel : ℕ) :
    0 ∈ dfs ns (fuel + 1) ∅ 0 := by
  unfold dfs
  rw [if_neg (Finset.not_mem_empty 0)]
  have hfold : ∀ (l : List ℕ) (vis : Finset ℕ),
      vis ⊆ l.foldl (fun vis j => dfs ns fuel vis j) vis := by
    intro l
    induction l with
    | nil =>
        intro vis
        exact Finset.Subset.refl _
    | cons y ys ihl =>
        intro vis
        rw [List.foldl_cons]
        exact (dfs_subset ns fuel vis y).trans (ihl _)
  exact hfold _ _ (Finset.mem_insert_self 0 ∅)

theorem repair_fold_invariant (pick : Finset ℕ → ℕ)
    (hpick : ∀ s : Finset ℕ, s.Nonempty → pick s ∈ s) (n : ℕ) :
    ∀ (l : List ℕ) (st : List GossipNode × Finset ℕ),
      (∀ x ∈ l, x < n) →
      GoodNodes n st.1 →
      (∀ v ∈ st.2, Reachable st.1 0 v) →
      st.2 ⊆ Finset.range n →
      st.2.Nonempty →
      GoodNodes n (l.foldl (repairStep pick) st).1 ∧
      (∀ v ∈ (l.foldl (repairStep pick) st).2,
        Reachable (l.foldl (repairStep pick) st).1 0 v) ∧
      (l.foldl (repairStep pick) st).2 ⊆ Finset.range n ∧
      (l.foldl (repairStep pick) st).2.Nonempty ∧
      st.2 ⊆ (l.foldl (repairStep pick) st).2 ∧
      (∀ x ∈ l, x ∈ (l.foldl (repairStep pick) st).2) := by
  intro l
  induction l with
  | nil =>
      intro st _ hg hreach hsub hne
      exact ⟨hg, hreach, hsub, hne, Finset.Subset.refl _,
        fun x hx => absurd hx (List.not_mem_nil x)⟩
  | cons x xs ih =>
      intro st hl hg hreach hsub hne
      rw [List.foldl_cons]
      have hx : x < n := hl x (List.mem_cons_self x xs)
      have htar : pick st.2 ∈ st.2 := hpick st.2 hne
      have htarn : pick st.2 < n := Finset.mem_range.mp (hsub htar)
      have hstep : repairStep pick st x
          = (addEdge st.1 x (pick st.2), insert x st.2) := by
        unfold repairStep
        rw [if_pos hne]
      rw [hstep]
      have hg' : GoodNodes n (addEdge st.1 x (pick st.2)) :=
        goodNodes_addEdge hg (nodeAt_isSome_of_lt hg.1 hx)
          (nodeAt_isSome_of_lt hg.1 htarn)
      have hreach' : ∀ v ∈ insert x st.2,
          Reachable (addEdge st.1 x (pick st.2)) 0 v := by
        intro v hv
        rcases Finset.mem_insert.mp hv with rfl | hv
        · refine (reachable_mono_addEdge (hreach _ htar)).tail ?_
          exact mem_neighborsOf_addEdge.mpr
            (Or.inr (Or.inr ⟨nodeAt_isSome_of_lt hg.1 htarn, rfl, rfl⟩))
        · exact reachable_mono_addEdge (hreach v hv)
      have hsub' : insert x st.2 ⊆ Finset.range n := by
        intro v hv
        rcases Finset.mem_insert.mp hv with rfl | hv
        · exact Finset.mem_range.mpr hx
        · exact hsub hv
      obtain ⟨g1, g2, g3, g4, g5, g6⟩ :=
        ih (addEdge st.1 x (pick st.2), insert x st.2)
          (fun y hy => hl y (List.mem_cons_of_mem x hy)) hg' hreach' hsub'
          (Finset.insert_nonempty x st.2)
      refine ⟨g1, g2, g3, g4, ?_, ?_⟩
      · exact (Finset.subset_insert x st.2).trans g5
      · intro y hy
        rcases List.mem_cons.mp hy with rfl | hy
        · exact g5 (Finset.mem_insert_self y st.2)
        · exact g6 y hy

theorem build_network_topology_sound (pick : Finset ℕ → ℕ)
    (hpick : ∀ s : Finset ℕ, s.Nonempty → pick s ∈ s) (n : ℕ) (hn : 2 ≤ n)
    (w h : ℚ) (ns0 : List GossipNode) (hg0 : GoodNodes n ns0) :
    GoodNodes n (build_network_topology pick n w h ns0) ∧
      (∀ v, v < n → Reachable (build_network_topology pick n w h ns0) 0 v) := by
  unfold build_network_topology
  dsimp only
  have hg1 : GoodNodes n
      ((allPairs n).foldl (connectClose ((min w h * (15/100)) ^ 2)) ns0) :=
    goodNodes_connect_fold _ (allPairs n) hg0
  have hlen : ((allPairs n).foldl
      (connectClose ((min w h * (15/100)) ^ 2)) ns0).length = n := by
    rw [← nodeIds_length, hg1.1, List.length_range]
  have hnonnil : ((allPairs n).foldl
      (connectClose ((min w h * (15/100)) ^ 2)) ns0) ≠ [] := by
    intro hnil
    rw [hnil] at hlen
    simp only [List.length_nil] at hlen
    omega
  unfold ensure_connectivity
  dsimp only
  rw [if_pos hnonnil]
  have hreachvis : ∀ v ∈ dfs ((allPairs n).foldl
        (connectClose ((min w h * (15/100)) ^ 2)) ns0) (n + 1) ∅ 0,
      Reachable ((allPairs n).foldl
        (connectClose ((min w h * (15/100)) ^ 2)) ns0) 0 v := by
    refine dfs_invariant _
      (fun v => Reachable ((allPairs n).foldl
        (connectClose ((min w h * (15/100)) ^ 2)) ns0) 0 v)
      ?_ (n + 1) ∅ 0 ?_ ?_
    · intro a b ha hb
      exact ha.tail hb
    · intro v hv
      exact absurd hv (Finset.not_mem_empty v)
    · exact Relation.ReflTransGen.refl
  have hvisrange : dfs ((allPairs n).foldl
        (connectClose ((min w h * (15/100)) ^ 2)) ns0) (n + 1) ∅ 0
      ⊆ Finset.range n := by
    intro v hv
    apply Finset.mem_range.mpr
    revert v hv
    apply dfs_invariant _ (fun v => v < n) ?_ (n + 1) ∅ 0 ?_ ?_
    · intro a b _ hb
      exact (hg1.2.2 a b hb).2
    · intro v hv
      exact absurd hv (Finset.not_mem_empty v)
    · omega
  have hvis0 : 0 ∈ dfs ((allPairs n).foldl
      (connectClose ((min w h * (15/100)) ^ 2)) ns0) (n + 1) ∅ 0 :=
    zero_mem_dfs _ n
  obtain ⟨g1, g2, g3, g4, g5, g6⟩ := repair_fold_invariant pick hpick n
    (ascList (Finset.range n \ dfs ((allPairs n).foldl
      (connectClose ((min w h * (15/100)) ^ 2)) ns0) (n + 1) ∅ 0))
    (((allPairs n).foldl (connectClose ((min w h * (15/100)) ^ 2)) ns0),
      dfs ((allPairs n).foldl
        (connectClose ((min w h * (15/100)) ^ 2)) ns0) (n + 1) ∅ 0)
    (by
      intro x hx
      have hm := mem_ascList.mp hx
      exact Finset.mem_range.mp (Finset.mem_sdiff.mp hm).1)
    hg1 hreachvis hvisrange ⟨0, hvis0⟩
  refine ⟨g1, ?_⟩
  intro v hv
  apply g2
  by_cases hvin : v ∈ dfs ((allPairs n).foldl
      (connectClose ((min w h * (15/100)) ^ 2)) ns0) (n + 1) ∅ 0
  · exact g5 hvin
  · apply g6
    apply mem_ascList.mpr
    exact Finset.mem_sdiff.mpr ⟨Finset.mem_range.mpr hv, hvin⟩

/-- C5: for every construction with nodeCount ≥ 2 (any sampled positions
and any connectivity-repair choice oracle behaving like
`random.choice`), after topology construction the neighbor relation is
symmetric for all pairs of nodes, every node has at least one neighbor,
and the graph is connected. -/
theorem topology_construction_sound (n : ℕ) (w h : ℚ) (pos : ℕ → ℚ × ℚ)
    (pick : Finset ℕ → ℕ) (hn : 2 ≤ n)
    (hpick : ∀ s : Finset ℕ, s.Nonempty → pick s ∈ s) :
    (∀ i j, i < n → j < n →
      (j ∈ neighborsOf (GossipSimulator.init n w h pos pick).nodes i ↔
        i ∈ neighborsOf (GossipSimulator.init n w h pos pick).nodes j)) ∧
    (∀ i, i < n →
      (neighborsOf (GossipSimulator.init n w h pos pick).nodes i).Nonempty) ∧
    (∀ i j, i < n → j < n →
      Reachable (GossipSimulator.init n w h pos pick).nodes i j) := by
  obtain ⟨hgF, hreachF⟩ := build_network_topology_sound pick hpick n hn w h
    (initialize_nodes n pos) (initialize_nodes_good n pos)
  have hnodes : (GossipSimulator.init n w h pos pick).nodes
      = build_network_topology pick n w h (initialize_nodes n pos) := rfl
  rw [hnodes]
  obtain ⟨hidsF, hsymF, hbndF⟩ := hgF
  have hsymR : Symmetric (Reachable
      (build_network_topology pick n w h (initialize_nodes n pos))) :=
    Relation.ReflTransGen.symmetric (fun a b hab => hsymF a b hab)
  have hreach2 : ∀ i j, i < n → j < n →
      Reachable (build_network_topology pick n w h (initialize_nodes n pos))
        i j :=
    fun i j hi hj => (hsymR (hreachF i hi)).trans (hreachF j hj)
  refine ⟨?_, ?_, hreach2⟩
  · intro i j _ _
    exact ⟨fun hm => hsymF i j hm, fun hm => hsymF j i hm⟩
  · intro i hi
    have hij : ∃ j, j < n ∧ j ≠ i := by
      by_cases hi0 : i = 0
      · exact ⟨1, by omega, by omega⟩
      · exact ⟨0, by omega, fun hh => hi0 hh.symm⟩
    obtain ⟨j, hj, hji⟩ := hij
    rcases Relation.ReflTransGen.cases_head (hreach2 i j hi hj) with
      heq | ⟨c, hadj, -⟩
    · exact absurd heq.symm hji
    · exact ⟨c, hadj⟩

/-- C5 witness: a concrete two-node construction with a concrete
position oracle and the least-element repair-choice oracle. -/
theorem topology_construction_sound_witness :
    (∀ i j, i < 2 → j < 2 →
      (j ∈ neighborsOf exSim.nodes i ↔ i ∈ neighborsOf exSim.nodes j)) ∧
    (∀ i, i < 2 → (neighborsOf exSim.nodes i).Nonempty) ∧
    (∀ i j, i < 2 → j < 2 → Reachable exSim.nodes i j) :=
  topology_construction_sound 2 800 600 exPos exPick (by omega)
    (fun s hs => exPick_mem hs)

end Gossip
